import Mathlib

/-!
Conversation synchronisation engine of the inventory frontend.

A shallow embedding of the chat components (`ChatList.js`, `ChatDetail.js`,
`ChatNavIcon.js`, `NewChatDialog.js`) and of `ChatService.js`, together with the
properties of the conversation store, the thread store, the polling channels and the send
coordinator; and of the role tests of `AuthContext.js` and `AuthService.js`, the
validation of `CompanyRegister.js`, and `calculateGrowth` and `limitDataPoints` of
`Dashboard.js`.

Conventions of the embedding.

* A JavaScript string is a Lean `String`.  `String.prototype.trim` and
  `String.prototype.includes` are defined below from their ECMAScript descriptions;
  `String.prototype.toLowerCase` is a parameter `toLowerCase : String → String` of every
  definition that calls it (its Unicode tables are not part of the repository).
* A React component is its tuple of `useState` cells; an event handler is a function
  from the cells before the handler to the cells after it.
* An `async` function is given the settlement of each promise it awaits as an argument
  (`Except` for rejected / fulfilled) and returns the cells afterwards together with the
  list of backend requests it issued, in the order they were issued.
* A timestamp is the instant it denotes, in milliseconds since the epoch.
-/

namespace InventoryFrontend

/-! ## JavaScript strings -/

/-- ECMAScript `WhiteSpace` and `LineTerminator` code points, the ones `trim` strips. -/
def isWhiteSpace (c : Char) : Bool :=
  let n := c.toNat
  n == 0x09 || n == 0x0A || n == 0x0B || n == 0x0C || n == 0x0D || n == 0x20 || n == 0xA0 ||
  n == 0x1680 || (0x2000 ≤ n && n ≤ 0x200A) || n == 0x2028 || n == 0x2029 || n == 0x202F ||
  n == 0x205F || n == 0x3000 || n == 0xFEFF

/-- `String.prototype.trim`: strip white space from both ends. -/
def trim (s : String) : String :=
  ⟨((s.data.dropWhile isWhiteSpace).reverse.dropWhile isWhiteSpace).reverse⟩

/-- JavaScript truthiness of a string: only the empty string is falsy. -/
def truthy (s : String) : Bool := !s.data.isEmpty

/-- `String.prototype.includes`: the search string occurs at some position. -/
def includes (s search : String) : Bool :=
  s.data.tails.any (fun rest => search.data.isPrefixOf rest)

/-- Lower-casing of the ASCII letters only: what `toLowerCase` does on ASCII text. -/
def asciiLower (s : String) : String := ⟨s.data.map Char.toLower⟩

/-! ## Data model (the JSON records the backend returns) -/

/-- Record `otherParticipant` of a conversation. -/
structure Participant where
  id : Nat
  name : String
  online : Bool
deriving DecidableEq, Repr

/-- Record `lastMessage` of a conversation. -/
structure LastMessage where
  content : String
  timestamp : Nat
deriving DecidableEq, Repr

/-- One element of the list returned by `GET /chats`. -/
structure ChatSummary where
  id : Nat
  otherParticipant : Participant
  lastMessage : Option LastMessage
  hasUnread : Bool
deriving DecidableEq, Repr

/-- One element of the list returned by `GET /chats/{id}/messages`. -/
structure Message where
  id : Nat
  senderId : Nat
  content : String
  timestamp : Nat
  read : Bool
deriving DecidableEq, Repr

/-- An axios response; `data` is `none` when the body is `null` or `undefined`. -/
structure Response (α : Type) where
  data : Option α
deriving DecidableEq, Repr

/-- The reason a request was rejected by the transport. -/
structure TransportError where
  status : Nat
deriving DecidableEq, Repr

/-- The expression `response.data || []`. -/
def dataOrEmpty {α : Type} (r : Response (List α)) : List α :=
  match r.data with
  | some xs => xs
  | none => []

/-! ## ChatList.js -/

/-- The `useState` cells of the `ChatList` component. -/
structure ChatListState where
  chats : List ChatSummary
  filteredChats : List ChatSummary
  loading : Bool
  searchTerm : String
  newChatDialogOpen : Bool
deriving DecidableEq, Repr

/-- The cells of a freshly mounted `ChatList`. -/
def ChatList.initial : ChatListState :=
  { chats := [], filteredChats := [], loading := true, searchTerm := "",
    newChatDialogOpen := false }

/-- The predicate passed to `chats.filter` in `applySearchFilter`. -/
def ChatList.searchPredicate (toLowerCase : String → String) (term : String)
    (chat : ChatSummary) : Bool :=
  includes (toLowerCase chat.otherParticipant.name) term ||
  (match chat.lastMessage with
   | none => false
   | some m => includes (toLowerCase m.content) term)

/-- `applySearchFilter` of `ChatList.js`. -/
def ChatList.applySearchFilter (toLowerCase : String → String) (st : ChatListState) :
    ChatListState :=
  if !truthy (trim st.searchTerm) then
    { st with filteredChats := st.chats }
  else
    let term := toLowerCase st.searchTerm
    let filtered := st.chats.filter (ChatList.searchPredicate toLowerCase term)
    { st with filteredChats := filtered }

/-- `getUnreadCount` of `ChatList.js`. -/
def ChatList.getUnreadCount (st : ChatListState) : Nat :=
  (st.chats.filter (fun chat => chat.hasUnread)).length

/-! ## Specification vocabulary for the search filter -/

/-- `hay` contains `needle` as a substring once both are lower-cased. -/
def ContainsCI (toLowerCase : String → String) (hay needle : String) : Prop :=
  (toLowerCase needle).data <:+: (toLowerCase hay).data

/-- A conversation matches a term on its participant name or its last-message content. -/
def MatchesTerm (toLowerCase : String → String) (term : String) (chat : ChatSummary) : Prop :=
  ContainsCI toLowerCase chat.otherParticipant.name term ∨
  ∃ m, chat.lastMessage = some m ∧ ContainsCI toLowerCase m.content term

/-! ## ChatService.js -/

/-- A backend request, as issued through axios by `ChatService`. -/
inductive Request where
  | getAvailableUsers
  | getAllChats
  | getRecentChats
  | getUnreadCount
  | getChatInfo (chatId : String)
  | getMessages (chatId : String)
  | sendMessage (chatId : String) (content : String)
  | markChatAsRead (chatId : String)
  | createChat (userId : Nat)
deriving DecidableEq, Repr

/-- How a promise settles: `Except.error` is a rejection, `Except.ok` a fulfilment. -/
abbrev Settled (α : Type) := Except TransportError α

/-- `getAllChats`: the `.catch` handler turns a rejection into `{ data: [] }`. -/
def ChatService.getAllChats (transport : Settled (Response (List ChatSummary))) :
    Settled (Response (List ChatSummary)) :=
  match transport with
  | .ok response => .ok response
  | .error _ => .ok { data := some [] }

/-- `getMessages`: the `.catch` handler turns a rejection into `{ data: [] }`. -/
def ChatService.getMessages (transport : Settled (Response (List Message))) :
    Settled (Response (List Message)) :=
  match transport with
  | .ok response => .ok response
  | .error _ => .ok { data := some [] }

/-- `sendMessage`: the `.catch` handler logs and rethrows the error. -/
def ChatService.sendMessage (transport : Settled (Response Unit)) : Settled (Response Unit) :=
  match transport with
  | .ok response => .ok response
  | .error err => .error err

/-! ## ChatList.js: refresh -/

/-- `fetchChats` of `ChatList.js`, given how the axios request of `getAllChats` settles. -/
def ChatList.fetchChats (showLoading : Bool) (st : ChatListState)
    (transport : Settled (Response (List ChatSummary))) : ChatListState × List Request :=
  let st1 := if showLoading then { st with loading := true } else st
  let st2 :=
    match ChatService.getAllChats transport with
    | .ok response =>
        { st1 with chats := dataOrEmpty response, filteredChats := dataOrEmpty response }
    | .error _ => st1
  ({ st2 with loading := false }, [Request.getAllChats])

/-! ## ChatDetail.js -/

/-- The body of `GET /chats/{id}`. -/
structure ChatInfo where
  id : Nat
  otherParticipant : Participant
deriving DecidableEq, Repr

/-- The `useState` cells of the `ChatDetail` component; `chatId` is the route parameter
and is passed to each function that closes over it. -/
structure ChatDetailState where
  chatInfo : Option ChatInfo
  messages : List Message
  loading : Bool
  newMessage : String
  sending : Bool
  showScrollButton : Bool
deriving DecidableEq, Repr

/-- The cells of a freshly mounted `ChatDetail`. -/
def ChatDetail.initial : ChatDetailState :=
  { chatInfo := none, messages := [], loading := true, newMessage := "", sending := false,
    showScrollButton := false }

/-- The test `response.data && response.data.length > 0`. -/
def hasMessages (response : Response (List Message)) : Bool :=
  match response.data with
  | some xs => decide (xs.length > 0)
  | none => false

/-- `fetchMessages` up to its `await`: the cells then, and the request it issues. -/
def ChatDetail.fetchMessagesIssue (showLoading : Bool) (chatId : String)
    (st : ChatDetailState) : ChatDetailState × List Request :=
  (if showLoading then { st with loading := true } else st, [Request.getMessages chatId])

/-- `fetchMessages` from its `await` on, given how `ChatService.getMessages(chatId)`
settled; `st` holds the cells at the moment the promise settles. -/
def ChatDetail.fetchMessagesResume (showLoading : Bool) (chatId : String)
    (st : ChatDetailState) (settled : Settled (Response (List Message))) :
    ChatDetailState × List Request :=
  let after : ChatDetailState × List Request :=
    match settled with
    | .ok response =>
        ({ st with messages := dataOrEmpty response },
         if hasMessages response then [Request.markChatAsRead chatId] else [])
    | .error _ => (st, [])
  (if showLoading then { after.1 with loading := false } else after.1, after.2)

/-- `fetchMessages` of `ChatDetail.js` run without interruption, given how the axios
request of `getMessages` settles. -/
def ChatDetail.fetchMessages (showLoading : Bool) (chatId : String) (st : ChatDetailState)
    (transport : Settled (Response (List Message))) : ChatDetailState × List Request :=
  let issued := ChatDetail.fetchMessagesIssue showLoading chatId st
  let resumed := ChatDetail.fetchMessagesResume showLoading chatId issued.1
    (ChatService.getMessages transport)
  (resumed.1, issued.2 ++ resumed.2)

/-- `fetchChatInfo` up to its `await`. -/
def ChatDetail.fetchChatInfoIssue (chatId : String) (st : ChatDetailState) :
    ChatDetailState × List Request :=
  ({ st with loading := true }, [Request.getChatInfo chatId])

/-- The body of `useEffect(..., [chatId])`, run when the route parameter becomes `chatId`:
the cells when the body has run, and the requests it issued (the interval is started too). -/
def ChatDetail.chatIdEffect (chatId : String) (st : ChatDetailState) :
    ChatDetailState × List Request :=
  if truthy chatId then
    let info := ChatDetail.fetchChatInfoIssue chatId st
    let msgs := ChatDetail.fetchMessagesIssue true chatId info.1
    (msgs.1, info.2 ++ msgs.2)
  else (st, [])

/-- What an event handler hands back to its caller. -/
inductive HandlerResult where
  | fulfilledUndefined
  | rejected (err : TransportError)
deriving DecidableEq, Repr

/-- The cells after a handler ran, the requests it issued in order, and its result. -/
structure Outcome where
  state : ChatDetailState
  requests : List Request
  result : HandlerResult
deriving DecidableEq, Repr

/-- `handleSendMessage` of `ChatDetail.js`, given how the axios requests of `sendMessage`
and of the following `getMessages` settle. -/
def ChatDetail.handleSendMessage (chatId : String) (st : ChatDetailState)
    (sendTransport : Settled (Response Unit))
    (messagesTransport : Settled (Response (List Message))) : Outcome :=
  if !truthy (trim st.newMessage) then
    { state := st, requests := [], result := .fulfilledUndefined }
  else
    let st1 := { st with sending := true }
    let sent := Request.sendMessage chatId st.newMessage
    let after : ChatDetailState × List Request :=
      match ChatService.sendMessage sendTransport with
      | .ok _ =>
          let st2 := { st1 with newMessage := "" }
          let fetched := ChatDetail.fetchMessages false chatId st2 messagesTransport
          (fetched.1, sent :: fetched.2)
      | .error _ => (st1, [sent])
    { state := { after.1 with sending := false }, requests := after.2,
      result := .fulfilledUndefined }

/-- `getMessageGroups` of `ChatDetail.js`.  The object `groups` is the list of its
entries in insertion order; `toLocaleDateString ts` stands for
`new Date(ts).toLocaleDateString()`. -/
def ChatDetail.getMessageGroups (toLocaleDateString : Nat → String)
    (messages : List Message) : List (String × List Message) :=
  messages.foldl
    (fun groups message =>
      let date := toLocaleDateString message.timestamp
      let groups1 := if (groups.lookup date).isNone then groups ++ [(date, [])] else groups
      groups1.map (fun entry =>
        if entry.1 = date then (entry.1, entry.2 ++ [message]) else entry))
    []

/-- `getFormattedDateHeader` of `ChatDetail.js`; `today` and `yesterdayStr` are the two
strings the function computes from the clock. -/
def ChatDetail.getFormattedDateHeader (today yesterdayStr dateStr : String) : String :=
  if dateStr = today then "Today"
  else if dateStr = yesterdayStr then "Yesterday"
  else dateStr

/-- A sample `toLocaleDateString`: the `en-US` rendering, in UTC, of the first two days
of the epoch. -/
def sampleDateString (ts : Nat) : String :=
  if ts < 86400000 then "1/1/1970" else if ts < 172800000 then "1/2/1970" else "later"

/-! ## Polling channels -/

/-- The three components that poll. -/
inductive Channel where
  | list
  | thread (chatId : String)
  | badge
deriving DecidableEq, Repr

/-- The requests issued by the body of the mount effect, before the interval is set. -/
def Channel.onMount : Channel → List Request
  | .list => [Request.getAllChats]
  | .thread chatId =>
      if truthy chatId then [Request.getChatInfo chatId, Request.getMessages chatId] else []
  | .badge => [Request.getUnreadCount, Request.getRecentChats]

/-- The requests issued by one run of the `setInterval` callback. -/
def Channel.onTick : Channel → List Request
  | .list => [Request.getAllChats]
  | .thread chatId => [Request.getMessages chatId]
  | .badge => [Request.getUnreadCount, Request.getRecentChats]

/-- The period passed to `setInterval`, in milliseconds. -/
def Channel.intervalMs : Channel → Nat
  | .list => 10000
  | .thread _ => 5000
  | .badge => 30000

/-- A mounted polling component: the requests issued and not yet settled, and whether
its interval is set. -/
structure Polling where
  inFlight : List Request
  timerSet : Bool
deriving DecidableEq, Repr

/-- What can happen to a polling component. -/
inductive PollEvent where
  | tick
  | settle (request : Request)
  | cleanup
deriving DecidableEq, Repr

/-- The mount effect: the first fetch is issued at once and the interval is set. -/
def Polling.mount (ch : Channel) : Polling :=
  match ch with
  | .thread chatId => { inFlight := ch.onMount, timerSet := truthy chatId }
  | _ => { inFlight := ch.onMount, timerSet := true }

/-- One event: a tick runs the interval callback, which issues its requests; a settlement
removes the request from those in flight; the cleanup clears the interval. -/
def Polling.step (ch : Channel) (p : Polling) : PollEvent → Polling
  | .tick => if p.timerSet then { p with inFlight := p.inFlight ++ ch.onTick } else p
  | .settle request => { p with inFlight := p.inFlight.erase request }
  | .cleanup => { p with timerSet := false }

/-- A schedule of events, applied in order. -/
def Polling.run (ch : Channel) (p : Polling) (events : List PollEvent) : Polling :=
  events.foldl (Polling.step ch) p

/-- The messages of a list are in ascending order of timestamp. -/
def TimestampAscending (messages : List Message) : Prop :=
  messages.Sorted (fun a b => a.timestamp ≤ b.timestamp)

/-! ## ChatService.js: the remaining operations -/

/-- One element of the list returned by `GET /chats/users`. -/
structure AvailableUser where
  id : Nat
  name : String
  email : String
deriving DecidableEq, Repr

/-- The body of `GET /chats/unread-count`. -/
structure UnreadCount where
  count : Nat
deriving DecidableEq, Repr

/-- The body of `POST /chats`. -/
structure CreatedChat where
  id : Nat
deriving DecidableEq, Repr

/-- `getAvailableUsers`: the `.catch` handler turns a rejection into `{ data: [] }`. -/
def ChatService.getAvailableUsers (transport : Settled (Response (List AvailableUser))) :
    Settled (Response (List AvailableUser)) :=
  match transport with
  | .ok response => .ok response
  | .error _ => .ok { data := some [] }

/-- `getRecentChats`: the `.catch` handler turns a rejection into `{ data: [] }`. -/
def ChatService.getRecentChats (transport : Settled (Response (List ChatSummary))) :
    Settled (Response (List ChatSummary)) :=
  match transport with
  | .ok response => .ok response
  | .error _ => .ok { data := some [] }

/-- `getUnreadCount`: the `.catch` handler turns a rejection into `{ data: { count: 0 } }`. -/
def ChatService.getUnreadCount (transport : Settled (Response UnreadCount)) :
    Settled (Response UnreadCount) :=
  match transport with
  | .ok response => .ok response
  | .error _ => .ok { data := some { count := 0 } }

/-- `getChatInfo`: the `.catch` handler turns a rejection into `{ data: null }`. -/
def ChatService.getChatInfo (transport : Settled (Response ChatInfo)) :
    Settled (Response ChatInfo) :=
  match transport with
  | .ok response => .ok response
  | .error _ => .ok { data := none }

/-- `markChatAsRead`: the `.catch` handler logs and rethrows the error. -/
def ChatService.markChatAsRead (transport : Settled (Response Unit)) :
    Settled (Response Unit) :=
  match transport with
  | .ok response => .ok response
  | .error err => .error err

/-- `createChat`: the `.catch` handler logs and rethrows the error. -/
def ChatService.createChat (transport : Settled (Response CreatedChat)) :
    Settled (Response CreatedChat) :=
  match transport with
  | .ok response => .ok response
  | .error err => .error err

/-! ## ChatDetail.js: mark-read, rendering of the groups, date header -/

/-- The settlement of the promise `ChatService.markChatAsRead(chatId)` created in
`fetchMessages`.  The promise is neither awaited nor given a handler there, so no code of
the component runs when it settles: the cells stay as they are (a rejection is left
unhandled). -/
def ChatDetail.markReadSettled (st : ChatDetailState) (_settled : Settled (Response Unit)) :
    ChatDetailState :=
  st

/-- The callback that `getMessageGroups` passes to `messages.forEach`. -/
def ChatDetail.groupStep (toLocaleDateString : Nat → String)
    (groups : List (String × List Message)) (message : Message) :
    List (String × List Message) :=
  let date := toLocaleDateString message.timestamp
  let groups1 := if (groups.lookup date).isNone then groups ++ [(date, [])] else groups
  groups1.map (fun entry =>
    if entry.1 = date then (entry.1, entry.2 ++ [message]) else entry)

/-- The number a string of decimal digits denotes. -/
def decimalValue (digits : List Char) : Nat :=
  digits.foldl (fun n c => 10 * n + (c.toNat - 48)) 0

/-- An ECMAScript array index: the canonical decimal numeral of an integer below
`2^32 - 1`. -/
def isArrayIndex (key : String) : Bool :=
  match key.data with
  | [] => false
  | c :: cs =>
      (c :: cs).all Char.isDigit && (c != '0' || cs.isEmpty) &&
        decide (decimalValue (c :: cs) < 4294967295)

/-- `Object.keys` of an ordinary object whose string-keyed properties were created in the
order of `entries`: the array indices in ascending numeric order, then the other keys in
the order of their creation. -/
def objectKeys {α : Type} (entries : List (String × α)) : List String :=
  let keys := entries.map Prod.fst
  (keys.filter isArrayIndex).insertionSort
      (fun a b => decimalValue a.data ≤ decimalValue b.data) ++
    keys.filter (fun key => !isArrayIndex key)

/-- The groups as the render walks them:
`Object.keys(messageGroups).map(date => ... messageGroups[date].map(...))`. -/
def ChatDetail.renderedGroups (toLocaleDateString : Nat → String)
    (messages : List Message) : List (String × List Message) :=
  let messageGroups := ChatDetail.getMessageGroups toLocaleDateString messages
  (objectKeys messageGroups).map (fun date => (date, (messageGroups.lookup date).getD []))

/-- `getFormattedDateHeader` with its reads of the clock.  `dayKey n` stands for the
`toLocaleDateString()` of a `Date` whose local day number is `n`, and `localDay` is the
local day number of `new Date()`.  `yesterday.setDate(yesterday.getDate() - 1)` goes
through ECMAScript's `MakeDay`, which is linear in the date: the local day number drops
by one, also from the first day of a month (date `0` is the last day of the month
before). -/
def ChatDetail.getFormattedDateHeaderAt (dayKey : Int → String) (localDay : Int)
    (dateStr : String) : String :=
  let today := dayKey localDay
  let yesterdayStr := dayKey (localDay - 1)
  ChatDetail.getFormattedDateHeader today yesterdayStr dateStr

/-- A sample `dayKey`: the `en-US` rendering of the days around the turn of the year
1969/1970 (day number 0 is 1 January 1970). -/
def sampleDayKey (n : Int) : String :=
  if n = -2 then "12/30/1969"
  else if n = -1 then "12/31/1969"
  else if n = 0 then "1/1/1970"
  else if n = 1 then "1/2/1970"
  else "other"

/-! ## Specification vocabulary for the groups -/

/-- The distinct keys of a list, in the order of their first occurrence. -/
def firstSeen : List String → List String
  | [] => []
  | k :: ks => k :: (firstSeen ks).filter (fun x => decide (x ≠ k))

/-- A calendar day is an interval of time: an instant between two instants of one day
falls on that day. -/
def DayIsInterval (toLocaleDateString : Nat → String) : Prop :=
  ∀ t1 t2 t3, t1 ≤ t2 → t2 ≤ t3 → toLocaleDateString t1 = toLocaleDateString t3 →
    toLocaleDateString t2 = toLocaleDateString t1

/-- Groups in chronological order: no message of a group is later than a message of a
group that comes after it. -/
def GroupsChronological (groups : List (String × List Message)) : Prop :=
  groups.Pairwise (fun g h => ∀ a ∈ g.2, ∀ b ∈ h.2, a.timestamp ≤ b.timestamp)

/-! ## NewChatDialog.js -/

/-- The `useState` cells of the `NewChatDialog` component. -/
structure NewChatDialogState where
  users : List AvailableUser
  filteredUsers : List AvailableUser
  searchTerm : String
  loading : Bool
  selectedUser : Option Nat
deriving DecidableEq, Repr

/-- The predicate passed to `users.filter` in `applySearchFilter` of `NewChatDialog.js`. -/
def NewChatDialog.searchPredicate (toLowerCase : String → String) (term : String)
    (user : AvailableUser) : Bool :=
  includes (toLowerCase user.name) term || includes (toLowerCase user.email) term

/-- `applySearchFilter` of `NewChatDialog.js`. -/
def NewChatDialog.applySearchFilter (toLowerCase : String → String)
    (st : NewChatDialogState) : NewChatDialogState :=
  if !truthy (trim st.searchTerm) then
    { st with filteredUsers := st.users }
  else
    let term := toLowerCase st.searchTerm
    let filtered := st.users.filter (NewChatDialog.searchPredicate toLowerCase term)
    { st with filteredUsers := filtered }

/-- A candidate matches a term on its name or its email. -/
def UserMatchesTerm (toLowerCase : String → String) (term : String) (user : AvailableUser) :
    Prop :=
  ContainsCI toLowerCase user.name term ∨ ContainsCI toLowerCase user.email term

/-! ## Polling channels: the requests issued over a schedule -/

/-- The requests one event makes a polling component issue: a tick that finds the interval
set runs the callback, nothing else issues a request. -/
def Polling.issuedAt (ch : Channel) (p : Polling) : PollEvent → List Request
  | .tick => if p.timerSet then ch.onTick else []
  | .settle _ => []
  | .cleanup => []

/-- The requests issued over a schedule of events, in the order of their issue. -/
def Polling.issuedOver (ch : Channel) : Polling → List PollEvent → List Request
  | _, [] => []
  | p, e :: es => Polling.issuedAt ch p e ++ Polling.issuedOver ch (Polling.step ch p e) es

/-! ## formatRelativeTime (ChatList.js and ChatNavIcon.js) -/

/-- The value `formatRelativeTime` returns, by the `return` that produced it: the numbers
are those the template literals print. -/
inductive RelativeTime where
  | blank
  | now
  | minutes (diffMins : Int)
  | hours (diffHours : Int)
  | days (diffDays : Int)
  | date (timestamp : Nat)
deriving DecidableEq, Repr

/-- The string of a returned value; `toLocaleDateString ts` stands for
`new Date(ts).toLocaleDateString()`. -/
def RelativeTime.render (toLocaleDateString : Nat → String) : RelativeTime → String
  | .blank => ""
  | .now => "now"
  | .minutes diffMins => toString diffMins ++ "m"
  | .hours diffHours => toString diffHours ++ "h"
  | .days diffDays => toString diffDays ++ "d"
  | .date timestamp => toLocaleDateString timestamp

/-- The body of `formatRelativeTime` in `ChatList.js`; `now` is the clock read by
`new Date()`, `timestamp` is `none` for a falsy argument. -/
def ChatList.relativeTime (now : Nat) (timestamp : Option Nat) : RelativeTime :=
  match timestamp with
  | none => .blank
  | some t =>
      let diffMs : Int := (now : Int) - (t : Int)
      let diffMins := diffMs / 60000
      let diffHours := diffMins / 60
      let diffDays := diffHours / 24
      if diffMins < 1 then .now
      else if diffMins < 60 then .minutes diffMins
      else if diffHours < 24 then .hours diffHours
      else if diffDays < 7 then .days diffDays
      else .date t

/-- `formatRelativeTime` of `ChatList.js`. -/
def ChatList.formatRelativeTime (toLocaleDateString : Nat → String) (now : Nat)
    (timestamp : Option Nat) : String :=
  (ChatList.relativeTime now timestamp).render toLocaleDateString

/-- The body of `formatRelativeTime` in `ChatNavIcon.js`. -/
def ChatNavIcon.relativeTime (now : Nat) (timestamp : Option Nat) : RelativeTime :=
  match timestamp with
  | none => .blank
  | some t =>
      let diffMs : Int := (now : Int) - (t : Int)
      let diffMins := diffMs / 60000
      let diffHours := diffMins / 60
      let diffDays := diffHours / 24
      if diffMins < 1 then .now
      else if diffMins < 60 then .minutes diffMins
      else if diffHours < 24 then .hours diffHours
      else if diffDays < 7 then .days diffDays
      else .date t

/-- `formatRelativeTime` of `ChatNavIcon.js`. -/
def ChatNavIcon.formatRelativeTime (toLocaleDateString : Nat → String) (now : Nat)
    (timestamp : Option Nat) : String :=
  (ChatNavIcon.relativeTime now timestamp).render toLocaleDateString

/-! ## AuthContext.js and AuthService.js -/

/-- The user object kept in `localStorage`: `roles` is `some` when `user.roles` is an
array, `role` is `some` when `user.role` is a string. -/
structure CurrentUser where
  roles : Option (List String)
  role : Option String
deriving DecidableEq, Repr

/-- `isAdmin` of `AuthContext.js`. -/
def AuthContext.isAdmin (currentUser : Option CurrentUser) : Bool :=
  match currentUser with
  | none => false
  | some user =>
      match user.roles with
      | some roles => roles.contains "ADMIN" || roles.contains "ROLE_ADMIN"
      | none =>
          match user.role with
          | some role => role == "ADMIN" || role == "ROLE_ADMIN"
          | none => false

/-- `isManager` of `AuthContext.js`. -/
def AuthContext.isManager (currentUser : Option CurrentUser) : Bool :=
  match currentUser with
  | none => false
  | some user =>
      match user.roles with
      | some roles =>
          roles.any (fun role => ["MANAGER", "ROLE_MANAGER", "ADMIN", "ROLE_ADMIN"].contains role)
      | none => false

/-- `hasRole` of `AuthService.js`; `stored` is what `getCurrentUser()` returns. -/
def AuthService.hasRole (stored : Option CurrentUser) (role : String) : Bool :=
  match stored with
  | none => false
  | some user =>
      match user.roles with
      | none => false
      | some roles => roles.contains role || roles.contains ("ROLE_" ++ role)

/-- `isAdmin` of `AuthService.js`. -/
def AuthService.isAdmin (stored : Option CurrentUser) : Bool :=
  AuthService.hasRole stored "ADMIN"

/-- `isManager` of `AuthService.js`. -/
def AuthService.isManager (stored : Option CurrentUser) : Bool :=
  AuthService.hasRole stored "MANAGER" || AuthService.hasRole stored "ADMIN"

/-! ## Dashboard.js -/

/-- The numeric fields of the `stats` cell of `Dashboard`; a `previous...` field is `none`
when it is `null`. -/
structure DashboardStats where
  productCount : Int
  previousProductCount : Option Int
  categoryCount : Int
  previousCategoryCount : Option Int
  supplierCount : Int
  previousSupplierCount : Option Int
  lowStockCount : Int
  previousLowStockCount : Option Int
  totalQuantity : Int
  previousTotalQuantity : Option Int
deriving DecidableEq, Repr

/-- The object `calculateGrowth` returns. -/
structure Growth where
  percentage : Option Int
  positive : Bool
  hasData : Bool
deriving DecidableEq, Repr

/-- `calculateGrowth` of `Dashboard.js`.  `percentOf change previous` stands for the
floating-point expression `Math.abs(Math.round((change / previous) * 100))`, and
`previous` is `none` for `null` or `undefined`. -/
def Dashboard.calculateGrowth (percentOf : Int → Int → Int) (stats : DashboardStats)
    (current : Int) (previous : Option Int) : Growth :=
  match previous with
  | none => { percentage := none, positive := true, hasData := false }
  | some previous =>
      if previous = 0 ∧ current = 0 then
        { percentage := some 0, positive := true, hasData := true }
      else if previous = 0 then
        { percentage := some (if current > 0 then 100 else 0), positive := true,
          hasData := true }
      else
        let change := current - previous
        let percentage := percentOf change previous
        let isLowStockMetric :=
          decide (current = stats.lowStockCount) &&
            decide (some previous = stats.previousLowStockCount)
        let positive := if isLowStockMetric then decide (change ≤ 0) else decide (change ≥ 0)
        { percentage := some percentage, positive := positive, hasData := true }

/-- The call `calculateGrowth(stats.productCount, stats.previousProductCount)`. -/
def Dashboard.productGrowth (percentOf : Int → Int → Int) (stats : DashboardStats) : Growth :=
  Dashboard.calculateGrowth percentOf stats stats.productCount stats.previousProductCount

/-- The call `calculateGrowth(stats.categoryCount, stats.previousCategoryCount)`. -/
def Dashboard.categoryGrowth (percentOf : Int → Int → Int) (stats : DashboardStats) : Growth :=
  Dashboard.calculateGrowth percentOf stats stats.categoryCount stats.previousCategoryCount

/-- The call `calculateGrowth(stats.supplierCount, stats.previousSupplierCount)`. -/
def Dashboard.supplierGrowth (percentOf : Int → Int → Int) (stats : DashboardStats) : Growth :=
  Dashboard.calculateGrowth percentOf stats stats.supplierCount stats.previousSupplierCount

/-- The call `calculateGrowth(stats.lowStockCount, stats.previousLowStockCount)`. -/
def Dashboard.lowStockGrowth (percentOf : Int → Int → Int) (stats : DashboardStats) : Growth :=
  Dashboard.calculateGrowth percentOf stats stats.lowStockCount stats.previousLowStockCount

/-- The call `calculateGrowth(stats.totalQuantity, stats.previousTotalQuantity)`. -/
def Dashboard.totalQuantityGrowth (percentOf : Int → Int → Int) (stats : DashboardStats) :
    Growth :=
  Dashboard.calculateGrowth percentOf stats stats.totalQuantity stats.previousTotalQuantity

/-- The `for` loop of `limitDataPoints`, from the test of its condition with the loop
variable at `i`: `none` when the fuel runs out before the loop ends. -/
def Dashboard.limitLoop {α : Type} (data : List α) (step : Nat) :
    Nat → Nat → List α → Option (List α)
  | 0, _, _ => none
  | fuel + 1, i, result =>
      if h : i < data.length - 1 then
        Dashboard.limitLoop data step fuel (i + step)
          (result ++ [data.get ⟨i, by omega⟩])
      else some result

/-- `limitDataPoints` of `Dashboard.js` for an array `data`, the loop run with `fuel`;
`(data.length - 2 + 3) / 4` is `Math.ceil((data.length - 2) / 4)`. -/
def Dashboard.limitDataPoints {α : Type} (fuel : Nat) (data : List α) : Option (List α) :=
  if h : data.length ≤ 6 then some data
  else
    let step := (data.length - 2 + 3) / 4
    (Dashboard.limitLoop data step fuel step [data.get ⟨0, by omega⟩]).map
      (fun result => result ++ [data.get ⟨data.length - 1, by omega⟩])

/-! ## CompanyRegister.js -/

/-- `String.prototype.length`: the number of UTF-16 code units. -/
def jsLength (s : String) : Nat :=
  (s.data.map (fun c => if c.toNat < 0x10000 then 1 else 2)).sum

/-- The `formData` cell of `CompanyRegister`. -/
structure FormData where
  companyName : String
  cui : String
  adminName : String
  adminEmail : String
  password : String
deriving DecidableEq, Repr

/-- The argument of `getFieldError`: one of the six field names, or any other string. -/
inductive FieldName where
  | companyName
  | cui
  | adminName
  | adminEmail
  | password
  | confirmPassword
  | other (name : String)
deriving DecidableEq, Repr

/-- The cells of `CompanyRegister` that validation reads; `touched field` is the
truthiness of `touched[field]`. -/
structure CompanyRegisterState where
  formData : FormData
  confirmPassword : String
  touched : FieldName → Bool

/-- The character class `[^\s@]`. -/
def isEmailChar (c : Char) : Bool := !isWhiteSpace c && c != '@'

/-- `validateEmail`: the test of `/^[^\s@]+@[^\s@]+\.[^\s@]+$/`.  The first `[^\s@]+` is
the longest run of such characters, since the `@` that follows it is not one of them; what
follows the `@` must consist of such characters and hold a dot that is neither its first
nor its last character. -/
def CompanyRegister.validateEmail (email : String) : Bool :=
  let localPart := email.data.takeWhile isEmailChar
  match email.data.dropWhile isEmailChar with
  | [] => false
  | c :: domain =>
      c == '@' && !localPart.isEmpty && domain.all isEmailChar &&
        (domain.drop 1).dropLast.contains '.'

/-- The object `validatePassword` returns. -/
structure PasswordChecks where
  length : Bool
  uppercase : Bool
  lowercase : Bool
  number : Bool
  special : Bool
deriving DecidableEq, Repr

/-- The code points of the bracket class of the `special` check of `validatePassword`:
! @ # $ % ^ & * ( ) _ + - = [ ] { } ; apostrophe : double quote, backslash | , . < > / ? -/
def specialCodePoints : List Nat :=
  [33, 64, 35, 36, 37, 94, 38, 42, 40, 41, 95, 43, 45, 61, 91, 93, 123, 125, 59, 39, 58, 34,
   92, 124, 44, 46, 60, 62, 47, 63]

/-- `validatePassword` of `CompanyRegister.js`. -/
def CompanyRegister.validatePassword (password : String) : PasswordChecks :=
  { length := decide (jsLength password ≥ 8),
    uppercase := password.data.any Char.isUpper,
    lowercase := password.data.any Char.isLower,
    number := password.data.any Char.isDigit,
    special := password.data.any (fun c => specialCodePoints.contains c.toNat) }

/-- `Object.values(checks).filter(Boolean).length`. -/
def PasswordChecks.passed (checks : PasswordChecks) : Nat :=
  ([checks.length, checks.uppercase, checks.lowercase, checks.number, checks.special].filter
    id).length

/-- `getPasswordStrength` of `CompanyRegister.js`, the quotient taken exactly. -/
def CompanyRegister.getPasswordStrength (password : String) : ℚ :=
  if !truthy password then 0
  else
    let checks := CompanyRegister.validatePassword password
    ((checks.passed : ℚ) / 5) * 100

/-- `validateCUI`: the test of `/^(RO)?[0-9]{2,10}$/i` on `cui.trim()`. -/
def CompanyRegister.validateCUI (cui : String) : Bool :=
  let cs := (trim cui).data
  let digits :=
    match cs with
    | r :: o :: rest =>
        if (r == 'R' || r == 'r') && (o == 'O' || o == 'o') then rest else cs
    | _ => cs
  decide (2 ≤ digits.length) && decide (digits.length ≤ 10) && digits.all Char.isDigit

/-- `getFieldError` of `CompanyRegister.js`. -/
def CompanyRegister.getFieldError (st : CompanyRegisterState) (fieldName : FieldName) :
    String :=
  if !st.touched fieldName then ""
  else
    match fieldName with
    | .companyName =>
        if !truthy (trim st.formData.companyName) then "Company name is required"
        else if jsLength (trim st.formData.companyName) < 2 then
          "Company name must be at least 2 characters"
        else ""
    | .cui =>
        if !truthy (trim st.formData.cui) then "CUI is required"
        else if !CompanyRegister.validateCUI st.formData.cui then
          "Invalid CUI format (e.g., RO12345678 or 12345678)"
        else ""
    | .adminName =>
        if !truthy (trim st.formData.adminName) then "Admin name is required"
        else if jsLength (trim st.formData.adminName) < 2 then
          "Name must be at least 2 characters"
        else ""
    | .adminEmail =>
        if !truthy (trim st.formData.adminEmail) then "Email is required"
        else if !CompanyRegister.validateEmail st.formData.adminEmail then
          "Invalid email format"
        else ""
    | .password =>
        if !truthy st.formData.password then "Password is required"
        else
          let checks := CompanyRegister.validatePassword st.formData.password
          if !checks.length then "Password must be at least 8 characters"
          else if !checks.uppercase then "Password must contain an uppercase letter"
          else if !checks.lowercase then "Password must contain a lowercase letter"
          else if !checks.number then "Password must contain a number"
          else if !checks.special then "Password must contain a special character"
          else ""
    | .confirmPassword =>
        if !truthy st.confirmPassword then "Please confirm your password"
        else if st.formData.password ≠ st.confirmPassword then "Passwords do not match"
        else ""
    | .other _ => ""

/-- `isFormValid` of `CompanyRegister.js`. -/
def CompanyRegister.isFormValid (st : CompanyRegisterState) : Bool :=
  decide (jsLength (trim st.formData.companyName) ≥ 2) &&
  CompanyRegister.validateCUI st.formData.cui &&
  decide (jsLength (trim st.formData.adminName) ≥ 2) &&
  CompanyRegister.validateEmail st.formData.adminEmail &&
  decide (CompanyRegister.getPasswordStrength st.formData.password = 100) &&
  decide (st.formData.password = st.confirmPassword)

/-- A filled registration form, every field touched. -/
def sampleRegistration : CompanyRegisterState :=
  { formData :=
      { companyName := "Acme SRL", cui := " ro12345678 ", adminName := "Ana",
        adminEmail := "ana@acme.example.ro", password := "Secret#2024" },
    confirmPassword := "Secret#2024",
    touched := fun _ => true }

/-! ## Strings: lemmas -/

theorem includes_iff (s search : String) :
    includes s search = true ↔ search.data <:+: s.data := by
  unfold includes
  rw [List.any_eq_true]
  constructor
  · rintro ⟨rest, hmem, hpre⟩
    rw [List.mem_tails] at hmem
    rw [List.isPrefixOf_iff_prefix] at hpre
    exact List.infix_iff_prefix_suffix.mpr ⟨rest, hpre, hmem⟩
  · intro h
    obtain ⟨rest, hpre, hsuf⟩ := List.infix_iff_prefix_suffix.mp h
    exact ⟨rest, (List.mem_tails _ _).mpr hsuf, List.isPrefixOf_iff_prefix.mpr hpre⟩

theorem searchPredicate_iff (toLowerCase : String → String) (term : String)
    (chat : ChatSummary) :
    ChatList.searchPredicate toLowerCase (toLowerCase term) chat = true ↔
      MatchesTerm toLowerCase term chat := by
  unfold ChatList.searchPredicate MatchesTerm ContainsCI
  rw [Bool.or_eq_true, includes_iff]
  cases hlm : chat.lastMessage with
  | none => simp
  | some m => simp [includes_iff]

/-! ## Search filter (C1) -/

/-- C1, as stated, fails: the one-space term is non-empty, yet `applySearchFilter` keeps
a conversation whose name and last message do not contain it. -/
theorem c1_whitespace_term_keeps_nonmatching :
    let bob : ChatSummary :=
      { id := 1, otherParticipant := { id := 7, name := "Bob", online := true },
        lastMessage := none, hasUnread := false }
    let st : ChatListState :=
      { chats := [bob], filteredChats := [], loading := false, searchTerm := " ",
        newChatDialogOpen := false }
    st.searchTerm ≠ "" ∧
      bob ∈ (ChatList.applySearchFilter asciiLower st).filteredChats ∧
      ¬ MatchesTerm asciiLower st.searchTerm bob := by
  refine ⟨by decide, by decide, ?_⟩
  intro h
  rw [← searchPredicate_iff] at h
  revert h
  decide

/-- C1, amended: for every stored list and every search term whose trimmed form is
non-empty, `applySearchFilter` yields a sub-list of the stored list (same relative order)
whose members are exactly the stored conversations matching the term, case-insensitively,
on participant name or last-message content; it is the stored list filtered by that match. -/
theorem c1_applySearchFilter_nonblank (toLowerCase : String → String) (st : ChatListState)
    (hterm : trim st.searchTerm ≠ "") :
    (ChatList.applySearchFilter toLowerCase st).filteredChats.Sublist st.chats ∧
    (∀ chat, chat ∈ (ChatList.applySearchFilter toLowerCase st).filteredChats ↔
      chat ∈ st.chats ∧ MatchesTerm toLowerCase st.searchTerm chat) ∧
    (∀ chat, MatchesTerm toLowerCase st.searchTerm chat →
      (ChatList.applySearchFilter toLowerCase st).filteredChats.count chat =
        st.chats.count chat) := by
  have htruthy : truthy (trim st.searchTerm) = true := by
    unfold truthy
    cases hd : (trim st.searchTerm).data with
    | nil => exact absurd (String.ext hd) hterm
    | cons c cs => rfl
  have hres : (ChatList.applySearchFilter toLowerCase st).filteredChats =
      st.chats.filter (ChatList.searchPredicate toLowerCase (toLowerCase st.searchTerm)) := by
    simp [ChatList.applySearchFilter, htruthy]
  rw [hres]
  refine ⟨List.filter_sublist _, ?_, ?_⟩
  · intro chat
    rw [List.mem_filter, searchPredicate_iff]
  · intro chat hmatch
    rw [List.count_filter ((searchPredicate_iff toLowerCase _ chat).mpr hmatch)]

theorem c1_applySearchFilter_nonblank_witness :
    trim "bo" ≠ "" ∧
    (ChatList.applySearchFilter asciiLower
        { chats := [{ id := 1, otherParticipant := { id := 7, name := "Bob", online := true },
                      lastMessage := none, hasUnread := false }],
          filteredChats := [], loading := false, searchTerm := "bo",
          newChatDialogOpen := false }).filteredChats.Sublist
      [{ id := 1, otherParticipant := { id := 7, name := "Bob", online := true },
         lastMessage := none, hasUnread := false }] :=
  ⟨by decide,
   (c1_applySearchFilter_nonblank asciiLower
      { chats := [{ id := 1, otherParticipant := { id := 7, name := "Bob", online := true },
                    lastMessage := none, hasUnread := false }],
        filteredChats := [], loading := false, searchTerm := "bo",
        newChatDialogOpen := false } (by decide)).1⟩

/-! ## Refresh of the conversation list (C2) -/

/-- C2, as stated, fails: with one unread conversation stored, a refresh whose request is
rejected by the transport leaves the stored list empty and the unread count at 0, not 1. -/
theorem c2_failed_refresh_empties_list :
    let alice : ChatSummary :=
      { id := 1, otherParticipant := { id := 7, name := "Alice", online := true },
        lastMessage := some { content := "hi", timestamp := 1000 }, hasUnread := true }
    let st : ChatListState :=
      { chats := [alice], filteredChats := [alice], loading := false, searchTerm := "",
        newChatDialogOpen := false }
    (ChatList.fetchChats false st (.error { status := 503 })).1.chats ≠ st.chats ∧
      ChatList.getUnreadCount st = 1 ∧
      ChatList.getUnreadCount (ChatList.fetchChats false st (.error { status := 503 })).1 = 0 := by
  decide

/-- C2, amended: if the transport rejects the conversation-list request, `getAllChats`
resolves with the empty list and `fetchChats` stores it: the stored list is empty and
`getUnreadCount` is 0 after the failed refresh, so list and count are those held before
exactly when they were already empty and 0. -/
theorem c2_failed_refresh_stores_empty (showLoading : Bool) (st : ChatListState)
    (err : TransportError) :
    (ChatList.fetchChats showLoading st (.error err)).1.chats = [] ∧
    ChatList.getUnreadCount (ChatList.fetchChats showLoading st (.error err)).1 = 0 ∧
    ((ChatList.fetchChats showLoading st (.error err)).1.chats = st.chats ↔ st.chats = []) ∧
    (ChatList.getUnreadCount (ChatList.fetchChats showLoading st (.error err)).1 =
        ChatList.getUnreadCount st ↔ ChatList.getUnreadCount st = 0) := by
  have hchats : (ChatList.fetchChats showLoading st (.error err)).1.chats = [] := by
    cases showLoading <;> rfl
  have hcount :
      ChatList.getUnreadCount (ChatList.fetchChats showLoading st (.error err)).1 = 0 := by
    unfold ChatList.getUnreadCount
    rw [hchats]
    rfl
  refine ⟨hchats, hcount, ?_, ?_⟩
  · rw [hchats]
    exact eq_comm
  · rw [hcount]
    exact eq_comm

/-! ## Polling channels (C3) -/

/-- C3, as stated, fails: on the thread channel (interval 5000 ms) with a message fetch
that takes 7000 ms, the tick at 5000 ms issues a second `getMessages` while the one issued
at mount is still in flight. -/
theorem c3_tick_starts_second_fetch :
    (Polling.run (Channel.thread "42") (Polling.mount (Channel.thread "42"))
        [PollEvent.settle (Request.getChatInfo "42"), PollEvent.tick]).inFlight =
      [Request.getMessages "42", Request.getMessages "42"] ∧
    (Polling.run Channel.list (Polling.mount Channel.list) [PollEvent.tick]).inFlight.length
      = 2 := by
  decide

/-- C3, amended: on every channel whose interval is set, a tick issues the channel's
fetches whatever is still in flight (no tick is skipped), so `n` ticks during which
nothing settles add `n` times the channel's fetches to those in flight. -/
theorem c3_every_tick_issues_fetch (ch : Channel) (p : Polling) (n : Nat)
    (hset : p.timerSet = true) :
    (Polling.step ch p PollEvent.tick).inFlight = p.inFlight ++ ch.onTick ∧
    (Polling.run ch p (List.replicate n PollEvent.tick)).inFlight.length =
      p.inFlight.length + n * ch.onTick.length ∧
    0 < ch.onTick.length := by
  refine ⟨by simp [Polling.step, hset], ?_, by cases ch <;> simp [Channel.onTick]⟩
  induction n generalizing p with
  | zero => simp [Polling.run]
  | succ k ih =>
    have hstep : (Polling.step ch p PollEvent.tick).timerSet = true := by
      simp [Polling.step, hset]
    have hrun : Polling.run ch p (List.replicate (k + 1) PollEvent.tick) =
        Polling.run ch (Polling.step ch p PollEvent.tick) (List.replicate k PollEvent.tick) := by
      simp [Polling.run, List.replicate_succ]
    rw [hrun, ih _ hstep]
    simp [Polling.step, hset]
    ring

theorem c3_every_tick_issues_fetch_witness :
    (Polling.mount (Channel.thread "42")).timerSet = true ∧
    (Polling.run (Channel.thread "42") (Polling.mount (Channel.thread "42"))
        (List.replicate 3 PollEvent.tick)).inFlight.length =
      (Polling.mount (Channel.thread "42")).inFlight.length +
        3 * (Channel.thread "42").onTick.length :=
  ⟨by decide,
   (c3_every_tick_issues_fetch (Channel.thread "42") (Polling.mount (Channel.thread "42")) 3
      (by decide)).2.1⟩

/-! ## Order of the thread (C4) -/

/-- C4, as stated, fails: when the server returns the later message first, the thread
holds the two messages in that order, which is not ascending by timestamp. -/
theorem c4_server_order_kept_unsorted :
    let late : Message :=
      { id := 2, senderId := 7, content := "second", timestamp := 2000, read := false }
    let early : Message :=
      { id := 1, senderId := 7, content := "first", timestamp := 1000, read := false }
    (ChatDetail.fetchMessages true "42" ChatDetail.initial
        (.ok { data := some [late, early] })).1.messages = [late, early] ∧
    ¬ TimestampAscending (ChatDetail.fetchMessages true "42" ChatDetail.initial
        (.ok { data := some [late, early] })).1.messages := by
  refine ⟨by decide, ?_⟩
  simp [TimestampAscending, List.Sorted, ChatDetail.fetchMessages,
    ChatDetail.fetchMessagesIssue, ChatDetail.fetchMessagesResume, ChatService.getMessages,
    dataOrEmpty, ChatDetail.initial]

/-- C4, amended: for every server response, the message list held afterwards is the
response's list in the order the server returned it (no sorting is applied), so it is
ascending by timestamp exactly when the server's list is. -/
theorem c4_thread_keeps_server_order (showLoading : Bool) (chatId : String)
    (st : ChatDetailState) (response : Response (List Message)) :
    (ChatDetail.fetchMessages showLoading chatId st (.ok response)).1.messages =
      dataOrEmpty response ∧
    (TimestampAscending (ChatDetail.fetchMessages showLoading chatId st (.ok response)).1.messages
      ↔ TimestampAscending (dataOrEmpty response)) := by
  have h : (ChatDetail.fetchMessages showLoading chatId st (.ok response)).1.messages =
      dataOrEmpty response := by
    cases showLoading <;> rfl
  exact ⟨h, by rw [h]⟩

/-! ## Grouping by calendar day (C5) -/

theorem getMessageGroups_step_same_day (toLocaleDateString : Nat → String) (day : String)
    (messages acc : List Message)
    (hday : ∀ m ∈ messages, toLocaleDateString m.timestamp = day) :
    messages.foldl
      (fun groups message =>
        let date := toLocaleDateString message.timestamp
        let groups1 := if (groups.lookup date).isNone then groups ++ [(date, [])] else groups
        groups1.map (fun entry =>
          if entry.1 = date then (entry.1, entry.2 ++ [message]) else entry))
      [(day, acc)] = [(day, acc ++ messages)] := by
  induction messages generalizing acc with
  | nil => simp
  | cons m rest ih =>
    have hm : toLocaleDateString m.timestamp = day := hday m (List.mem_cons_self _ _)
    have hrest : ∀ x ∈ rest, toLocaleDateString x.timestamp = day :=
      fun x hx => hday x (List.mem_cons_of_mem _ hx)
    rw [List.foldl_cons]
    simp only [hm, List.lookup_cons, beq_self_eq_true, Option.isNone_some, Bool.false_eq_true,
      if_false, List.map_cons, List.map_nil, if_true]
    rw [ih (acc ++ [m]) hrest]
    simp

/-- C5, as stated, fails: two messages of one calendar day held with the later one first
form one group that lists them in that order, which is not ascending by timestamp. -/
theorem c5_group_keeps_input_order_unsorted :
    let late : Message :=
      { id := 2, senderId := 7, content := "second", timestamp := 2000, read := false }
    let early : Message :=
      { id := 1, senderId := 7, content := "first", timestamp := 1000, read := false }
    sampleDateString late.timestamp = sampleDateString early.timestamp ∧
    ChatDetail.getMessageGroups sampleDateString [late, early] =
      [("1/1/1970", [late, early])] ∧
    ¬ TimestampAscending [late, early] := by
  refine ⟨by decide, by decide, ?_⟩
  simp [TimestampAscending, List.Sorted]

/-- C5, amended: for every list of N >= 1 messages whose timestamps all fall on one local
calendar day, `getMessageGroups` returns exactly one group, keyed by that day, holding all
N messages in the order of the input list (ascending by timestamp exactly when the input
is); when that day is the current one its header is `Today`. -/
theorem c5_single_day_single_group (toLocaleDateString : Nat → String) (day yesterdayStr : String)
    (messages : List Message) (hne : messages ≠ [])
    (hday : ∀ m ∈ messages, toLocaleDateString m.timestamp = day) :
    ChatDetail.getMessageGroups toLocaleDateString messages = [(day, messages)] ∧
    ChatDetail.getFormattedDateHeader day yesterdayStr day = "Today" := by
  refine ⟨?_, by simp [ChatDetail.getFormattedDateHeader]⟩
  cases messages with
  | nil => exact absurd rfl hne
  | cons m rest =>
    have hm : toLocaleDateString m.timestamp = day := hday m (List.mem_cons_self _ _)
    have hrest : ∀ x ∈ rest, toLocaleDateString x.timestamp = day :=
      fun x hx => hday x (List.mem_cons_of_mem _ hx)
    unfold ChatDetail.getMessageGroups
    rw [List.foldl_cons]
    simp only [hm, List.lookup_nil, Option.isNone_none, if_true, List.nil_append,
      List.map_cons, List.map_nil]
    exact getMessageGroups_step_same_day toLocaleDateString day rest [m] hrest

theorem c5_single_day_single_group_witness :
    ([{ id := 1, senderId := 7, content := "first", timestamp := 1000, read := false },
      { id := 2, senderId := 8, content := "second", timestamp := 2000, read := false }] :
        List Message) ≠ [] ∧
    ChatDetail.getMessageGroups sampleDateString
      [{ id := 1, senderId := 7, content := "first", timestamp := 1000, read := false },
       { id := 2, senderId := 8, content := "second", timestamp := 2000, read := false }] =
      [("1/1/1970",
        [{ id := 1, senderId := 7, content := "first", timestamp := 1000, read := false },
         { id := 2, senderId := 8, content := "second", timestamp := 2000, read := false }])] :=
  ⟨by decide,
   (c5_single_day_single_group sampleDateString "1/1/1970" "12/31/1969"
      [{ id := 1, senderId := 7, content := "first", timestamp := 1000, read := false },
       { id := 2, senderId := 8, content := "second", timestamp := 2000, read := false }]
      (by decide) (by decide)).1⟩

/-! ## Message count across polls (C6) -/

/-- C6, as stated, fails: a thread holding one message holds none after a poll whose
request the transport rejects. -/
theorem c6_failed_poll_drops_messages :
    let held : Message :=
      { id := 1, senderId := 7, content := "first", timestamp := 1000, read := true }
    let st : ChatDetailState := { ChatDetail.initial with messages := [held], loading := false }
    (ChatDetail.fetchMessages false "42" st (.error { status := 503 })).1.messages = [] ∧
    (ChatDetail.fetchMessages false "42" st (.error { status := 503 })).1.messages.length <
      st.messages.length := by
  decide

/-- C6, amended: after a `fetchMessages` poll the thread holds the list the poll resolved
with, the server's list when the fetch succeeds and the empty list when it fails; so the
number of messages held does not decrease across a successful poll exactly when the
server's list is at least as long as the list held, and across a failed poll exactly when
the thread was empty. -/
theorem c6_poll_count_is_response_count (showLoading : Bool) (chatId : String)
    (st : ChatDetailState) (response : Response (List Message)) (err : TransportError) :
    (ChatDetail.fetchMessages showLoading chatId st (.ok response)).1.messages.length =
      (dataOrEmpty response).length ∧
    (ChatDetail.fetchMessages showLoading chatId st (.error err)).1.messages.length = 0 ∧
    (st.messages.length ≤
        (ChatDetail.fetchMessages showLoading chatId st (.ok response)).1.messages.length ↔
      st.messages.length ≤ (dataOrEmpty response).length) ∧
    (st.messages.length ≤
        (ChatDetail.fetchMessages showLoading chatId st (.error err)).1.messages.length ↔
      st.messages = []) := by
  have hok : (ChatDetail.fetchMessages showLoading chatId st (.ok response)).1.messages =
      dataOrEmpty response := by
    cases showLoading <;> rfl
  have herr : (ChatDetail.fetchMessages showLoading chatId st (.error err)).1.messages = [] := by
    cases showLoading <;> rfl
  rw [hok, herr]
  refine ⟨rfl, rfl, Iff.rfl, ?_⟩
  simp

/-! ## Switching the open conversation (C7) -/

/-- C7, as stated, fails: when the route parameter becomes `B` while the thread holds a
message of `A`, the effect issues the fetches for `B` and the thread still holds that
message. -/
theorem c7_switch_keeps_old_messages :
    let ofA : Message :=
      { id := 1, senderId := 7, content := "from A", timestamp := 1000, read := true }
    let st : ChatDetailState := { ChatDetail.initial with messages := [ofA], loading := false }
    (ChatDetail.chatIdEffect "B" st).2 = [Request.getChatInfo "B", Request.getMessages "B"] ∧
    (ChatDetail.chatIdEffect "B" st).1.messages = [ofA] ∧
    (ChatDetail.chatIdEffect "B" st).1.messages ≠ [] := by
  decide

/-- C7, amended: when the open conversation id changes to B, the effect issues the
requests for B (chat info, then messages) and leaves the thread's message list as it was;
the list is replaced only when a message fetch resolves, by the list that fetch returned. -/
theorem c7_switch_leaves_messages (chatId : String) (st : ChatDetailState)
    (response : Response (List Message)) :
    (ChatDetail.chatIdEffect chatId st).1.messages = st.messages ∧
    (ChatDetail.chatIdEffect chatId st).2 =
      (if truthy chatId then [Request.getChatInfo chatId, Request.getMessages chatId] else []) ∧
    (ChatDetail.fetchMessagesResume true chatId (ChatDetail.chatIdEffect chatId st).1
        (.ok response)).1.messages = dataOrEmpty response := by
  refine ⟨?_, ?_, rfl⟩
  · unfold ChatDetail.chatIdEffect
    cases truthy chatId <;> rfl
  · unfold ChatDetail.chatIdEffect
    cases truthy chatId <;> rfl

/-! ## Sending (C8, C9, C10) -/

theorem truthy_eq_false_iff (s : String) : truthy s = false ↔ s = "" := by
  unfold truthy
  constructor
  · intro h
    cases hd : s.data with
    | nil => exact String.ext hd
    | cons c cs => rw [hd] at h; simp at h
  · intro h
    subst h
    rfl

theorem truthy_eq_true_iff (s : String) : truthy s = true ↔ s ≠ "" := by
  rw [Ne, ← truthy_eq_false_iff]
  cases truthy s <;> simp

/-- C8, as stated, fails: for the content of three spaces `handleSendMessage` hands back
no failure; its result is `undefined`, the very result of a send that succeeded. -/
theorem c8_blank_send_returns_no_failure :
    let blank : ChatDetailState := { ChatDetail.initial with newMessage := "   " }
    let hello : ChatDetailState := { ChatDetail.initial with newMessage := "hello" }
    (ChatDetail.handleSendMessage "42" blank (.ok { data := none })
        (.ok { data := some [] })).result = HandlerResult.fulfilledUndefined ∧
    (¬ ∃ err, (ChatDetail.handleSendMessage "42" blank (.ok { data := none })
        (.ok { data := some [] })).result = HandlerResult.rejected err) ∧
    (ChatDetail.handleSendMessage "42" blank (.ok { data := none })
        (.ok { data := some [] })).result =
      (ChatDetail.handleSendMessage "42" hello (.ok { data := none })
        (.ok { data := some [] })).result ∧
    (ChatDetail.handleSendMessage "42" hello (.ok { data := none })
        (.ok { data := some [] })).requests =
      [Request.sendMessage "42" "hello", Request.getMessages "42"] := by
  refine ⟨by decide, ?_, by decide, by decide⟩
  rintro ⟨err, h⟩
  have h0 : (ChatDetail.handleSendMessage "42" { ChatDetail.initial with newMessage := "   " }
      (.ok { data := none }) (.ok { data := some [] })).result =
      HandlerResult.fulfilledUndefined := by decide
  rw [h0] at h
  cases h

/-- C8, amended: for every compose content whose trimmed form is empty,
`handleSendMessage` issues no request (neither `sendMessage` nor `getMessages`), changes
no state, and returns `undefined` as on every other path: no validation failure is
returned or thrown. -/
theorem c8_blank_send_is_noop (chatId : String) (st : ChatDetailState)
    (sendTransport : Settled (Response Unit))
    (messagesTransport : Settled (Response (List Message)))
    (hblank : trim st.newMessage = "") :
    (ChatDetail.handleSendMessage chatId st sendTransport messagesTransport).requests = [] ∧
    (ChatDetail.handleSendMessage chatId st sendTransport messagesTransport).state = st ∧
    (ChatDetail.handleSendMessage chatId st sendTransport messagesTransport).result =
      HandlerResult.fulfilledUndefined := by
  have h : truthy (trim st.newMessage) = false := (truthy_eq_false_iff _).mpr hblank
  simp [ChatDetail.handleSendMessage, h]

theorem c8_blank_send_is_noop_witness :
    trim "   " = "" ∧
    (ChatDetail.handleSendMessage "42" { ChatDetail.initial with newMessage := "   " }
        (.ok { data := none }) (.ok { data := some [] })).requests = [] :=
  ⟨by decide,
   (c8_blank_send_is_noop "42" { ChatDetail.initial with newMessage := "   " }
      (.ok { data := none }) (.ok { data := some [] }) (by decide)).1⟩

/-- C9: for every non-blank compose content, the compose content after
`handleSendMessage` is the content before it when `sendMessage` rejects, and the empty
string when `sendMessage` resolves. -/
theorem c9_compose_kept_on_failure_cleared_on_success (chatId : String) (st : ChatDetailState)
    (err : TransportError) (ack : Response Unit)
    (messagesTransport : Settled (Response (List Message)))
    (hcontent : trim st.newMessage ≠ "") :
    (ChatDetail.handleSendMessage chatId st (.error err) messagesTransport).state.newMessage =
      st.newMessage ∧
    (ChatDetail.handleSendMessage chatId st (.ok ack) messagesTransport).state.newMessage =
      "" := by
  have h : truthy (trim st.newMessage) = true := (truthy_eq_true_iff _).mpr hcontent
  constructor
  · simp [ChatDetail.handleSendMessage, h, ChatService.sendMessage]
  · cases messagesTransport <;>
      simp [ChatDetail.handleSendMessage, h, ChatService.sendMessage, ChatDetail.fetchMessages,
        ChatDetail.fetchMessagesIssue, ChatDetail.fetchMessagesResume, ChatService.getMessages]

theorem c9_compose_kept_on_failure_cleared_on_success_witness :
    trim " hello " ≠ "" ∧
    (ChatDetail.handleSendMessage "42" { ChatDetail.initial with newMessage := " hello " }
        (.error { status := 500 }) (.ok { data := some [] })).state.newMessage = " hello " ∧
    (ChatDetail.handleSendMessage "42" { ChatDetail.initial with newMessage := " hello " }
        (.ok { data := none }) (.ok { data := some [] })).state.newMessage = "" :=
  ⟨by decide,
   c9_compose_kept_on_failure_cleared_on_success "42"
     { ChatDetail.initial with newMessage := " hello " } { status := 500 } { data := none }
     (.ok { data := some [] }) (by decide)⟩

/-- C10: for every non-blank compose content, a send that succeeds issues `sendMessage`
and then exactly one `getMessages`, for the same conversation id and no other; a send
that fails issues `sendMessage` only, and no `getMessages` at all. -/
theorem c10_one_refresh_after_successful_send (chatId : String) (st : ChatDetailState)
    (err : TransportError) (ack : Response Unit)
    (messagesTransport : Settled (Response (List Message)))
    (hcontent : trim st.newMessage ≠ "") :
    (∃ rest,
      (ChatDetail.handleSendMessage chatId st (.ok ack) messagesTransport).requests =
        Request.sendMessage chatId st.newMessage :: Request.getMessages chatId :: rest ∧
      ∀ other, Request.getMessages other ∉ rest) ∧
    (ChatDetail.handleSendMessage chatId st (.ok ack) messagesTransport).requests.count
      (Request.getMessages chatId) = 1 ∧
    (∀ other, Request.getMessages other ∈
        (ChatDetail.handleSendMessage chatId st (.ok ack) messagesTransport).requests →
      other = chatId) ∧
    (ChatDetail.handleSendMessage chatId st (.error err) messagesTransport).requests =
      [Request.sendMessage chatId st.newMessage] ∧
    (∀ other, Request.getMessages other ∉
      (ChatDetail.handleSendMessage chatId st (.error err) messagesTransport).requests) := by
  have h : truthy (trim st.newMessage) = true := (truthy_eq_true_iff _).mpr hcontent
  have hok : (ChatDetail.handleSendMessage chatId st (.ok ack) messagesTransport).requests =
      Request.sendMessage chatId st.newMessage :: Request.getMessages chatId ::
        (ChatDetail.fetchMessagesResume false chatId { st with sending := true, newMessage := "" }
          (ChatService.getMessages messagesTransport)).2 := by
    simp [ChatDetail.handleSendMessage, h, ChatService.sendMessage, ChatDetail.fetchMessages,
      ChatDetail.fetchMessagesIssue]
  have hrest : ∀ other, Request.getMessages other ∉
      (ChatDetail.fetchMessagesResume false chatId { st with sending := true, newMessage := "" }
          (ChatService.getMessages messagesTransport)).2 := by
    intro other
    unfold ChatDetail.fetchMessagesResume
    cases ChatService.getMessages messagesTransport with
    | error e => simp
    | ok response => cases hasMessages response <;> simp
  have herr : (ChatDetail.handleSendMessage chatId st (.error err) messagesTransport).requests =
      [Request.sendMessage chatId st.newMessage] := by
    simp [ChatDetail.handleSendMessage, h, ChatService.sendMessage]
  refine ⟨⟨_, hok, hrest⟩, ?_, ?_, herr, ?_⟩
  · rw [hok, List.count_cons, List.count_cons, List.count_eq_zero_of_not_mem (hrest chatId)]
    simp
  · intro other hmem
    rw [hok] at hmem
    simp only [List.mem_cons, Request.getMessages.injEq, reduceCtorEq, false_or] at hmem
    rcases hmem with h1 | h2
    · exact h1
    · exact absurd h2 (hrest other)
  · intro other
    rw [herr]
    simp

theorem c10_one_refresh_after_successful_send_witness :
    trim "hello" ≠ "" ∧
    (ChatDetail.handleSendMessage "42" { ChatDetail.initial with newMessage := "hello" }
        (.ok { data := none })
        (.ok { data := some [{ id := 1, senderId := 7, content := "hello", timestamp := 1000,
                               read := false }] })).requests.count
      (Request.getMessages "42") = 1 :=
  ⟨by decide,
   (c10_one_refresh_after_successful_send "42"
      { ChatDetail.initial with newMessage := "hello" } { status := 500 } { data := none }
      (.ok { data := some [{ id := 1, senderId := 7, content := "hello", timestamp := 1000,
                             read := false }] }) (by decide)).2.1⟩

/-! ## Unread count (C11, C12) -/

/-- C11: for every conversation list held by `ChatList`, `getUnreadCount` is the number
of entries whose `hasUnread` is true; after a successful refresh returning the list `L` it
is the number of `hasUnread` entries of `L`.  Two entries of which one is unread give 1,
and a later refresh returning that entry with `hasUnread = false` gives 0. -/
theorem c11_unread_count_counts_hasUnread (showLoading : Bool) (st : ChatListState)
    (L : List ChatSummary) (a b : ChatSummary) :
    ChatList.getUnreadCount st = st.chats.countP (fun chat => chat.hasUnread) ∧
    ChatList.getUnreadCount (ChatList.fetchChats showLoading st (.ok { data := some L })).1 =
      L.countP (fun chat => chat.hasUnread) ∧
    ChatList.getUnreadCount
      { st with chats := [{ a with hasUnread := true }, { b with hasUnread := false }] } = 1 ∧
    ChatList.getUnreadCount
      (ChatList.fetchChats showLoading
        { st with chats := [{ a with hasUnread := true }, { b with hasUnread := false }] }
        (.ok { data := some [{ a with hasUnread := false }, { b with hasUnread := false }] })).1
      = 0 := by
  have hfetch : ∀ (s : ChatListState) (R : List ChatSummary),
      (ChatList.fetchChats showLoading s (.ok { data := some R })).1.chats = R := by
    intro s R
    cases showLoading <;> rfl
  refine ⟨?_, ?_, ?_, ?_⟩
  · unfold ChatList.getUnreadCount
    rw [List.countP_eq_length_filter]
  · unfold ChatList.getUnreadCount
    rw [hfetch, List.countP_eq_length_filter]
  · simp [ChatList.getUnreadCount]
  · unfold ChatList.getUnreadCount
    rw [hfetch]
    simp

/-- C12, as stated, fails: a stored conversation with `hasUnread = true` is absent after a
refresh whose request the transport rejected with status 401; no backend response said
that it was read or gone. -/
theorem c12_failed_refresh_drops_unread_conversation :
    let carol : ChatSummary :=
      { id := 3, otherParticipant := { id := 9, name := "Carol", online := false },
        lastMessage := some { content := "ping", timestamp := 5000 }, hasUnread := true }
    let dave : ChatSummary :=
      { id := 4, otherParticipant := { id := 10, name := "Dave", online := true },
        lastMessage := none, hasUnread := false }
    let st : ChatListState :=
      { chats := [carol, dave], filteredChats := [carol, dave], loading := false,
        searchTerm := "", newChatDialogOpen := false }
    carol ∈ st.chats ∧ carol.hasUnread = true ∧
    carol ∉ (ChatList.fetchChats false st (.error { status := 401 })).1.chats ∧
    ((ChatList.fetchChats false st (.error { status := 401 })).1.chats.filter
        (fun chat => chat.id == carol.id)) = [] := by
  decide

/-- C12, amended: no client-side operation on the conversation list rewrites an entry.
After `fetchChats` the stored list is exactly the list the refresh resolved with, the
backend's response when the fetch succeeds and the empty list when the transport fails
(every conversation is then absent); `applySearchFilter` leaves the stored list as it is
and shows a sub-list of its entries, unchanged. -/
theorem c12_refresh_stores_resolved_list (toLowerCase : String → String) (showLoading : Bool)
    (st : ChatListState) (response : Response (List ChatSummary)) (err : TransportError) :
    (ChatList.fetchChats showLoading st (.ok response)).1.chats = dataOrEmpty response ∧
    (ChatList.fetchChats showLoading st (.error err)).1.chats = [] ∧
    (ChatList.applySearchFilter toLowerCase st).chats = st.chats ∧
    (ChatList.applySearchFilter toLowerCase st).filteredChats.Sublist st.chats := by
  refine ⟨by cases showLoading <;> rfl, by cases showLoading <;> rfl, ?_, ?_⟩
  · unfold ChatList.applySearchFilter
    split <;> rfl
  · unfold ChatList.applySearchFilter
    split
    · exact List.Sublist.refl _
    · exact List.filter_sublist _

/-! ## ChatService: reads and writes (C13, C14) -/

/-- C13: no read operation of `ChatService` rejects, however the transport settles; when
the transport fails, with whatever error (an authentication failure included), each
resolves to its fallback: the empty list for the list reads, count 0 for the unread count,
`null` for the chat info. -/
theorem c13_reads_never_reject
    (users : Settled (Response (List AvailableUser)))
    (chats recent : Settled (Response (List ChatSummary)))
    (messages : Settled (Response (List Message)))
    (unread : Settled (Response UnreadCount))
    (info : Settled (Response ChatInfo))
    (err : TransportError) :
    ((∃ r, ChatService.getAvailableUsers users = .ok r) ∧
     (∃ r, ChatService.getAllChats chats = .ok r) ∧
     (∃ r, ChatService.getRecentChats recent = .ok r) ∧
     (∃ r, ChatService.getMessages messages = .ok r) ∧
     (∃ r, ChatService.getUnreadCount unread = .ok r) ∧
     (∃ r, ChatService.getChatInfo info = .ok r)) ∧
    (ChatService.getAvailableUsers (.error err) = .ok { data := some [] } ∧
     ChatService.getAllChats (.error err) = .ok { data := some [] } ∧
     ChatService.getRecentChats (.error err) = .ok { data := some [] } ∧
     ChatService.getMessages (.error err) = .ok { data := some [] } ∧
     ChatService.getUnreadCount (.error err) = .ok { data := some { count := 0 } } ∧
     ChatService.getChatInfo (.error err) = .ok { data := none }) ∧
    ChatService.getAllChats (.error { status := 401 }) = .ok { data := some [] } := by
  refine ⟨⟨?_, ?_, ?_, ?_, ?_, ?_⟩, ⟨rfl, rfl, rfl, rfl, rfl, rfl⟩, rfl⟩
  · cases users <;> exact ⟨_, rfl⟩
  · cases chats <;> exact ⟨_, rfl⟩
  · cases recent <;> exact ⟨_, rfl⟩
  · cases messages <;> exact ⟨_, rfl⟩
  · cases unread <;> exact ⟨_, rfl⟩
  · cases info <;> exact ⟨_, rfl⟩

/-- C14: each write operation of `ChatService` (`sendMessage`, `markChatAsRead`,
`createChat`) rejects with the very error the transport produced whenever the transport
fails, and resolves only with the response the transport resolved with, never with a
fallback value. -/
theorem c14_writes_rethrow (err : TransportError)
    (send mark : Settled (Response Unit)) (create : Settled (Response CreatedChat)) :
    (ChatService.sendMessage (.error err) = .error err ∧
     ChatService.markChatAsRead (.error err) = .error err ∧
     ChatService.createChat (.error err) = .error err) ∧
    (ChatService.sendMessage send = send ∧
     ChatService.markChatAsRead mark = mark ∧
     ChatService.createChat create = create) := by
  refine ⟨⟨rfl, rfl, rfl⟩, ?_, ?_, ?_⟩
  · cases send <;> rfl
  · cases mark <;> rfl
  · cases create <;> rfl

/-! ## Thread replacement and mark-read (C15, C16) -/

/-- C15: for every prior thread state and every successful response `R` to
`fetchMessages`, the message list afterwards is exactly the list of `R`: a response
carrying the list `xs` leaves `xs`, a response carrying no data leaves the empty list.
Nothing of the prior state survives: two different prior states give the same list; of
two consecutive fetches only the second response remains, and fetching the same response
twice leaves it once. -/
theorem c15_fetch_replaces_thread (showLoading showLoading2 : Bool) (chatId : String)
    (st other : ChatDetailState) (R R2 : Response (List Message)) (xs ys : List Message) :
    (ChatDetail.fetchMessages showLoading chatId st (.ok { data := some xs })).1.messages =
      xs ∧
    (ChatDetail.fetchMessages showLoading chatId st (.ok { data := none })).1.messages = [] ∧
    (ChatDetail.fetchMessages showLoading2 chatId
        (ChatDetail.fetchMessages showLoading chatId st (.ok { data := some xs })).1
        (.ok { data := some ys })).1.messages = ys ∧
    (ChatDetail.fetchMessages showLoading2 chatId
        (ChatDetail.fetchMessages showLoading chatId st (.ok { data := some xs })).1
        (.ok { data := some xs })).1.messages = xs ∧
    (ChatDetail.fetchMessages showLoading chatId st (.ok R)).1.messages = dataOrEmpty R ∧
    (ChatDetail.fetchMessages showLoading chatId st (.ok R)).1.messages =
      (ChatDetail.fetchMessages showLoading chatId other (.ok R)).1.messages ∧
    (ChatDetail.fetchMessages showLoading2 chatId
        (ChatDetail.fetchMessages showLoading chatId st (.ok R)).1 (.ok R2)).1.messages =
      dataOrEmpty R2 ∧
    (ChatDetail.fetchMessages showLoading2 chatId
        (ChatDetail.fetchMessages showLoading chatId st (.ok R)).1 (.ok R)).1.messages =
      dataOrEmpty R ∧
    (let first : Message :=
        { id := 1, senderId := 7, content := "first", timestamp := 1000, read := true }
      let second : Message :=
        { id := 2, senderId := 8, content := "second", timestamp := 2000, read := false }
      (ChatDetail.fetchMessages false "42"
        { ChatDetail.initial with messages := [first] }
        (.ok { data := some [first, second] })).1.messages = [first, second]) := by
  have h : ∀ (b : Bool) (s : ChatDetailState) (r : Response (List Message)),
      (ChatDetail.fetchMessages b chatId s (.ok r)).1.messages = dataOrEmpty r := by
    intro b s r
    cases b <;> rfl
  have hsome : ∀ (b : Bool) (s : ChatDetailState) (zs : List Message),
      (ChatDetail.fetchMessages b chatId s (.ok { data := some zs })).1.messages = zs := by
    intro b s zs
    cases b <;> rfl
  refine ⟨hsome _ _ _, ?_, hsome _ _ _, hsome _ _ _, h _ _ _, ?_, h _ _ _, h _ _ _, ?_⟩
  · cases showLoading <;> rfl
  · rw [h, h]
  · decide

/-- C16: `fetchMessages` issues, after its `getMessages`, one `markChatAsRead` for the
open conversation id when the fetched list is non-empty and none otherwise (none either
when the fetch failed); the thread's message list is the fetched list however the
mark-read request settles. -/
theorem c16_mark_read_iff_nonempty (showLoading : Bool) (chatId : String)
    (st : ChatDetailState) (response : Response (List Message)) (err : TransportError)
    (markTransport : Settled (Response Unit)) :
    (ChatDetail.fetchMessages showLoading chatId st (.ok response)).2 =
      Request.getMessages chatId ::
        (if dataOrEmpty response ≠ [] then [Request.markChatAsRead chatId] else []) ∧
    (Request.markChatAsRead chatId ∈
        (ChatDetail.fetchMessages showLoading chatId st (.ok response)).2 ↔
      dataOrEmpty response ≠ []) ∧
    (ChatDetail.fetchMessages showLoading chatId st (.error err)).2 =
      [Request.getMessages chatId] ∧
    (ChatDetail.markReadSettled
        (ChatDetail.fetchMessages showLoading chatId st (.ok response)).1
        (ChatService.markChatAsRead markTransport)).messages = dataOrEmpty response := by
  have hreq : (ChatDetail.fetchMessages showLoading chatId st (.ok response)).2 =
      Request.getMessages chatId ::
        (if dataOrEmpty response ≠ [] then [Request.markChatAsRead chatId] else []) := by
    obtain ⟨data⟩ := response
    cases data with
    | none =>
      simp [ChatDetail.fetchMessages, ChatDetail.fetchMessagesIssue,
        ChatDetail.fetchMessagesResume, ChatService.getMessages, hasMessages, dataOrEmpty]
    | some xs =>
      cases xs with
      | nil =>
        simp [ChatDetail.fetchMessages, ChatDetail.fetchMessagesIssue,
          ChatDetail.fetchMessagesResume, ChatService.getMessages, hasMessages, dataOrEmpty]
      | cons x rest =>
        simp [ChatDetail.fetchMessages, ChatDetail.fetchMessagesIssue,
          ChatDetail.fetchMessagesResume, ChatService.getMessages, hasMessages, dataOrEmpty]
  refine ⟨hreq, ?_, ?_, ?_⟩
  · rw [hreq]
    by_cases hne : dataOrEmpty response = [] <;> simp [hne]
  · simp [ChatDetail.fetchMessages, ChatDetail.fetchMessagesIssue,
      ChatDetail.fetchMessagesResume, ChatService.getMessages, hasMessages]
  · unfold ChatDetail.markReadSettled
    cases showLoading <;> rfl

/-! ## Order of the groups (C17): lemmas -/

theorem mem_firstSeen (k : String) (ks : List String) : k ∈ firstSeen ks ↔ k ∈ ks := by
  induction ks with
  | nil => simp [firstSeen]
  | cons a rest ih =>
    simp only [firstSeen, List.mem_cons, List.mem_filter, ih, decide_eq_true_eq]
    constructor
    · rintro (h | ⟨h, _⟩)
      · exact Or.inl h
      · exact Or.inr h
    · rintro (h | h)
      · exact Or.inl h
      · by_cases hk : k = a
        · exact Or.inl hk
        · exact Or.inr ⟨h, hk⟩

theorem firstSeen_append_singleton (ks : List String) (k : String) :
    firstSeen (ks ++ [k]) = if k ∈ ks then firstSeen ks else firstSeen ks ++ [k] := by
  induction ks with
  | nil => simp [firstSeen]
  | cons a rest ih =>
    have hunfold : firstSeen (a :: rest ++ [k]) =
        a :: (firstSeen (rest ++ [k])).filter (fun x => decide (x ≠ a)) := rfl
    rw [hunfold, ih]
    by_cases hka : k = a
    · subst hka
      by_cases hmem : k ∈ rest
      · simp [hmem, firstSeen]
      · simp [hmem, firstSeen, List.filter_append]
    · by_cases hmem : k ∈ rest
      · simp [hmem, hka, firstSeen]
      · simp [hmem, hka, firstSeen, List.filter_append]

theorem firstSeen_nodup (ks : List String) : (firstSeen ks).Nodup := by
  induction ks with
  | nil => simp [firstSeen]
  | cons a rest ih =>
    simp only [firstSeen, List.nodup_cons, List.mem_filter, decide_eq_true_eq]
    exact ⟨fun h => h.2 rfl, ih.filter _⟩

theorem lookup_map_key {β : Type} (g : String → β) (keys : List String) (k : String) :
    (keys.map (fun key => (key, g key))).lookup k = if k ∈ keys then some (g k) else none := by
  induction keys with
  | nil => simp
  | cons a rest ih =>
    simp only [List.map_cons, List.lookup_cons, ih, List.mem_cons]
    by_cases hka : k = a
    · subst hka
      simp
    · have hbeq : (k == a) = false := by simpa using hka
      simp [hbeq, hka]

theorem getMessageGroups_eq_foldl (toLocaleDateString : Nat → String)
    (messages : List Message) :
    ChatDetail.getMessageGroups toLocaleDateString messages =
      messages.foldl (ChatDetail.groupStep toLocaleDateString) [] :=
  rfl

/-- The groups in closed form: one group per distinct day, in the order in which the days
are first seen, each holding the messages of its day in the order of the input. -/
theorem getMessageGroups_eq (toLocaleDateString : Nat → String) (messages : List Message) :
    ChatDetail.getMessageGroups toLocaleDateString messages =
      (firstSeen (messages.map (fun m => toLocaleDateString m.timestamp))).map
        (fun key =>
          (key, messages.filter (fun m => decide (toLocaleDateString m.timestamp = key)))) := by
  rw [getMessageGroups_eq_foldl]
  induction messages using List.reverseRecOn with
  | nil => rfl
  | append_singleton pre m ih =>
    rw [List.foldl_append, List.foldl_cons, List.foldl_nil, ih]
    simp only [List.map_append, List.map_cons, List.map_nil, firstSeen_append_singleton]
    unfold ChatDetail.groupStep
    simp only [lookup_map_key, mem_firstSeen]
    by_cases hmem : toLocaleDateString m.timestamp ∈
        pre.map (fun x => toLocaleDateString x.timestamp)
    · simp only [hmem, if_true, Option.isNone_some, Bool.false_eq_true, if_false,
        List.map_map]
      apply List.map_congr_left
      intro key _
      by_cases hk : key = toLocaleDateString m.timestamp
      · subst hk
        simp [List.filter_append]
      · have hk2 : ¬ toLocaleDateString m.timestamp = key := fun h => hk h.symm
        simp [List.filter_append, hk, hk2]
    · simp only [hmem, if_false, Option.isNone_none, if_true, List.map_append, List.map_map,
        List.map_cons, List.map_nil]
      congr 1
      · apply List.map_congr_left
        intro key hkey
        have hk : ¬ key = toLocaleDateString m.timestamp := by
          intro h
          rw [mem_firstSeen, h] at hkey
          exact hmem hkey
        have hk2 : ¬ toLocaleDateString m.timestamp = key := fun h => hk h.symm
        simp [List.filter_append, hk, hk2]
      · have hnone : pre.filter
            (fun x => decide (toLocaleDateString x.timestamp = toLocaleDateString m.timestamp))
            = [] := by
          rw [List.filter_eq_nil_iff]
          intro x hx hdec
          exact hmem (List.mem_map.mpr ⟨x, hx, by simpa using hdec⟩)
        simp [List.filter_append, hnone]

theorem firstSeen_sorted_indexOf (ks : List String) :
    ((firstSeen ks).map (fun k => ks.indexOf k)).Sorted (fun i j => i < j) := by
  induction ks with
  | nil => simp [firstSeen]
  | cons a rest ih =>
    have hne : ∀ k, k ∈ (firstSeen rest).filter (fun x => decide (x ≠ a)) →
        (a :: rest).indexOf k = rest.indexOf k + 1 := by
      intro k hk
      have hka : k ≠ a := by simpa using (List.mem_filter.mp hk).2
      exact List.indexOf_cons_ne _ (fun h => hka h.symm)
    simp only [firstSeen, List.map_cons, List.sorted_cons, List.indexOf_cons_self]
    constructor
    · intro b hb
      obtain ⟨k, hk, rfl⟩ := List.mem_map.mp hb
      rw [hne k hk]
      exact Nat.succ_pos _
    · unfold List.Sorted
      rw [List.pairwise_map]
      have ih2 : (firstSeen rest).Pairwise (fun k1 k2 => rest.indexOf k1 < rest.indexOf k2) := by
        have := ih
        unfold List.Sorted at this
        rwa [List.pairwise_map] at this
      refine List.Pairwise.imp_of_mem ?_ (ih2.filter _)
      intro k1 k2 h1 h2 hlt
      rw [hne k1 h1, hne k2 h2]
      exact Nat.succ_lt_succ hlt

theorem objectKeys_of_no_arrayIndex {α : Type} (entries : List (String × α))
    (h : ∀ e ∈ entries, isArrayIndex e.1 = false) :
    objectKeys entries = entries.map Prod.fst := by
  have h1 : (entries.map Prod.fst).filter isArrayIndex = [] := by
    rw [List.filter_eq_nil_iff]
    intro k hk
    obtain ⟨e, he, rfl⟩ := List.mem_map.mp hk
    simp [h e he]
  have h2 : (entries.map Prod.fst).filter (fun key => !isArrayIndex key) =
      entries.map Prod.fst := by
    rw [List.filter_eq_self]
    intro k hk
    obtain ⟨e, he, rfl⟩ := List.mem_map.mp hk
    simp [h e he]
  unfold objectKeys
  simp only [h1, h2]
  rfl

theorem getMessageGroups_keys (toLocaleDateString : Nat → String) (messages : List Message) :
    (ChatDetail.getMessageGroups toLocaleDateString messages).map Prod.fst =
      firstSeen (messages.map (fun m => toLocaleDateString m.timestamp)) := by
  rw [getMessageGroups_eq, List.map_map]
  exact List.map_id _

theorem objectKeys_getMessageGroups (toLocaleDateString : Nat → String)
    (messages : List Message)
    (hkeys : ∀ ts, isArrayIndex (toLocaleDateString ts) = false) :
    objectKeys (ChatDetail.getMessageGroups toLocaleDateString messages) =
      firstSeen (messages.map (fun m => toLocaleDateString m.timestamp)) := by
  rw [objectKeys_of_no_arrayIndex, getMessageGroups_keys]
  intro e he
  have hmem : e.1 ∈ (ChatDetail.getMessageGroups toLocaleDateString messages).map Prod.fst :=
    List.mem_map.mpr ⟨e, he, rfl⟩
  rw [getMessageGroups_keys, mem_firstSeen] at hmem
  obtain ⟨m, _, hm⟩ := List.mem_map.mp hmem
  rw [← hm]
  exact hkeys _

theorem renderedGroups_eq (toLocaleDateString : Nat → String) (messages : List Message)
    (hkeys : ∀ ts, isArrayIndex (toLocaleDateString ts) = false) :
    ChatDetail.renderedGroups toLocaleDateString messages =
      ChatDetail.getMessageGroups toLocaleDateString messages := by
  unfold ChatDetail.renderedGroups
  simp only [objectKeys_getMessageGroups toLocaleDateString messages hkeys]
  rw [getMessageGroups_eq]
  apply List.map_congr_left
  intro key hkey
  rw [lookup_map_key]
  simp [hkey]

theorem firstSeen_pairwise_chronological (toLocaleDateString : Nat → String)
    (messages : List Message) (hasc : TimestampAscending messages)
    (hday : DayIsInterval toLocaleDateString) :
    (firstSeen (messages.map (fun m => toLocaleDateString m.timestamp))).Pairwise
      (fun k1 k2 =>
        ∀ a ∈ messages.filter (fun m => decide (toLocaleDateString m.timestamp = k1)),
        ∀ b ∈ messages.filter (fun m => decide (toLocaleDateString m.timestamp = k2)),
          a.timestamp ≤ b.timestamp) := by
  induction messages with
  | nil => simp [firstSeen]
  | cons m rest ih =>
    unfold TimestampAscending at hasc
    rw [List.sorted_cons] at hasc
    obtain ⟨hhead, htail⟩ := hasc
    simp only [List.map_cons, firstSeen, List.pairwise_cons]
    constructor
    · intro k2 hk2 a ha b hb
      have hk2ne : k2 ≠ toLocaleDateString m.timestamp := by
        simpa using (List.mem_filter.mp hk2).2
      rw [List.mem_filter] at ha hb
      obtain ⟨hb1, hb2⟩ := hb
      have hbday : toLocaleDateString b.timestamp = k2 := by simpa using hb2
      have hbrest : b ∈ rest := by
        rcases List.mem_cons.mp hb1 with h | h
        · subst h
          exact absurd hbday.symm hk2ne
        · exact h
      obtain ⟨ha1, ha2⟩ := ha
      have haday : toLocaleDateString a.timestamp = toLocaleDateString m.timestamp := by
        simpa using ha2
      rcases List.mem_cons.mp ha1 with h | h
      · subst h
        exact hhead b hbrest
      · by_contra hlt
        have hle : b.timestamp ≤ a.timestamp := Nat.le_of_lt (Nat.lt_of_not_le hlt)
        have := hday m.timestamp b.timestamp a.timestamp (hhead b hbrest) hle haday.symm
        exact hk2ne (hbday.symm.trans this)
    · refine List.Pairwise.imp_of_mem ?_ ((ih htail).filter _)
      intro k1 k2 h1 h2 hrel a ha b hb
      have hk1 : ¬ toLocaleDateString m.timestamp = k1 := by
        have : k1 ≠ toLocaleDateString m.timestamp := by simpa using (List.mem_filter.mp h1).2
        exact fun h => this h.symm
      have hk2 : ¬ toLocaleDateString m.timestamp = k2 := by
        have : k2 ≠ toLocaleDateString m.timestamp := by simpa using (List.mem_filter.mp h2).2
        exact fun h => this h.symm
      have ha2 : a ∈ rest.filter (fun x => decide (toLocaleDateString x.timestamp = k1)) := by
        simpa [List.filter_cons, hk1] using ha
      have hb2 : b ∈ rest.filter (fun x => decide (toLocaleDateString x.timestamp = k2)) := by
        simpa [List.filter_cons, hk2] using hb
      exact hrel a ha2 b hb2

theorem getMessageGroups_chronological (toLocaleDateString : Nat → String)
    (messages : List Message) (hasc : TimestampAscending messages)
    (hday : DayIsInterval toLocaleDateString) :
    GroupsChronological (ChatDetail.getMessageGroups toLocaleDateString messages) := by
  unfold GroupsChronological
  rw [getMessageGroups_eq, List.pairwise_map]
  exact firstSeen_pairwise_chronological toLocaleDateString messages hasc hday

theorem sampleDateString_not_arrayIndex (ts : Nat) :
    isArrayIndex (sampleDateString ts) = false := by
  unfold sampleDateString
  split_ifs <;> decide

theorem sampleDateString_dayIsInterval : DayIsInterval sampleDateString := by
  intro t1 t2 t3 h12 h23 h
  unfold sampleDateString at *
  split_ifs at h ⊢ <;> first | rfl | omega | exact absurd h (by decide)

/-! ## Order of the groups (C17) -/

/-- C17, as stated, fails: for a thread held with a message of 2 January first and a
message of 1 January second, the groups are rendered in the order in which the days are
first seen, 2 January and then 1 January, which is not chronological. -/
theorem c17_first_seen_order_not_chronological :
    let late : Message :=
      { id := 2, senderId := 7, content := "second", timestamp := 90000000, read := false }
    let early : Message :=
      { id := 1, senderId := 7, content := "first", timestamp := 1000, read := false }
    objectKeys (ChatDetail.getMessageGroups sampleDateString [late, early]) =
      ["1/2/1970", "1/1/1970"] ∧
    ChatDetail.renderedGroups sampleDateString [late, early] =
      [("1/2/1970", [late]), ("1/1/1970", [early])] ∧
    ¬ GroupsChronological (ChatDetail.renderedGroups sampleDateString [late, early]) := by
  refine ⟨by decide, by decide, ?_⟩
  have hgroups : ChatDetail.renderedGroups sampleDateString
      [{ id := 2, senderId := 7, content := "second", timestamp := 90000000, read := false },
       { id := 1, senderId := 7, content := "first", timestamp := 1000, read := false }] =
      [("1/2/1970",
        [{ id := 2, senderId := 7, content := "second", timestamp := 90000000,
           read := false }]),
       ("1/1/1970",
        [{ id := 1, senderId := 7, content := "first", timestamp := 1000,
           read := false }])] := by
    decide
  simp only [hgroups]
  simp [GroupsChronological]

/-- C17, amended: for every message list, the groups of `getMessageGroups` are enumerated
(`Object.keys` order, as rendered) in the order in which their calendar-day key first
occurs in the input list: each day of the list once, ordered by the position of its first
message.  That order is chronological when the input list is in ascending order of
timestamp (a calendar day being an interval of time).  Date keys are not array indices. -/
theorem c17_groups_in_first_seen_order (toLocaleDateString : Nat → String)
    (messages : List Message)
    (hkeys : ∀ ts, isArrayIndex (toLocaleDateString ts) = false) :
    objectKeys (ChatDetail.getMessageGroups toLocaleDateString messages) =
      firstSeen (messages.map (fun m => toLocaleDateString m.timestamp)) ∧
    (objectKeys (ChatDetail.getMessageGroups toLocaleDateString messages)).Nodup ∧
    (∀ key, key ∈ objectKeys (ChatDetail.getMessageGroups toLocaleDateString messages) ↔
      key ∈ messages.map (fun m => toLocaleDateString m.timestamp)) ∧
    ((objectKeys (ChatDetail.getMessageGroups toLocaleDateString messages)).map
      (fun key => (messages.map (fun m => toLocaleDateString m.timestamp)).indexOf key)).Sorted
        (fun i j => i < j) ∧
    (ChatDetail.renderedGroups toLocaleDateString messages).map Prod.fst =
      objectKeys (ChatDetail.getMessageGroups toLocaleDateString messages) ∧
    (TimestampAscending messages → DayIsInterval toLocaleDateString →
      GroupsChronological (ChatDetail.renderedGroups toLocaleDateString messages)) := by
  have hobj := objectKeys_getMessageGroups toLocaleDateString messages hkeys
  refine ⟨hobj, ?_, ?_, ?_, ?_, ?_⟩
  · rw [hobj]
    exact firstSeen_nodup _
  · intro key
    rw [hobj]
    exact mem_firstSeen _ _
  · rw [hobj]
    exact firstSeen_sorted_indexOf _
  · rw [renderedGroups_eq toLocaleDateString messages hkeys, hobj]
    exact getMessageGroups_keys _ _
  · intro hasc hday
    rw [renderedGroups_eq toLocaleDateString messages hkeys]
    exact getMessageGroups_chronological toLocaleDateString messages hasc hday

theorem c17_groups_in_first_seen_order_witness :
    (∀ ts, isArrayIndex (sampleDateString ts) = false) ∧
    objectKeys (ChatDetail.getMessageGroups sampleDateString
      [{ id := 1, senderId := 7, content := "first", timestamp := 1000, read := false },
       { id := 2, senderId := 7, content := "second", timestamp := 90000000, read := false },
       { id := 3, senderId := 8, content := "third", timestamp := 90000500, read := false }]) =
      firstSeen
        (([{ id := 1, senderId := 7, content := "first", timestamp := 1000, read := false },
          { id := 2, senderId := 7, content := "second", timestamp := 90000000, read := false },
          { id := 3, senderId := 8, content := "third", timestamp := 90000500,
            read := false }] : List Message).map (fun m => sampleDateString m.timestamp)) ∧
    GroupsChronological (ChatDetail.renderedGroups sampleDateString
      [{ id := 1, senderId := 7, content := "first", timestamp := 1000, read := false },
       { id := 2, senderId := 7, content := "second", timestamp := 90000000, read := false },
       { id := 3, senderId := 8, content := "third", timestamp := 90000500, read := false }]) :=
  ⟨sampleDateString_not_arrayIndex,
   (c17_groups_in_first_seen_order sampleDateString
      [{ id := 1, senderId := 7, content := "first", timestamp := 1000, read := false },
       { id := 2, senderId := 7, content := "second", timestamp := 90000000, read := false },
       { id := 3, senderId := 8, content := "third", timestamp := 90000500, read := false }]
      sampleDateString_not_arrayIndex).1,
   (c17_groups_in_first_seen_order sampleDateString
      [{ id := 1, senderId := 7, content := "first", timestamp := 1000, read := false },
       { id := 2, senderId := 7, content := "second", timestamp := 90000000, read := false },
       { id := 3, senderId := 8, content := "third", timestamp := 90000500, read := false }]
      sampleDateString_not_arrayIndex).2.2.2.2.2
     (by simp [TimestampAscending, List.Sorted]) sampleDateString_dayIsInterval⟩

/-! ## Date header (C18) -/

/-- C18: for every date key `d`, the key of local day `k`, and every current local day,
`getFormattedDateHeader(d)` is `Today` exactly when `k` is the current local day,
`Yesterday` exactly when `k` is the day before it (the day number drops by one across
month and year boundaries alike), and `d` itself in every other case.  A date key is the
key of one day only and is neither of the two words. -/
theorem c18_date_header_today_yesterday (dayKey : Int → String) (localDay k : Int)
    (hkey : ∀ j, dayKey j = dayKey k → j = k)
    (hwords : dayKey k ≠ "Today" ∧ dayKey k ≠ "Yesterday") :
    (ChatDetail.getFormattedDateHeaderAt dayKey localDay (dayKey k) = "Today" ↔
      k = localDay) ∧
    (ChatDetail.getFormattedDateHeaderAt dayKey localDay (dayKey k) = "Yesterday" ↔
      k = localDay - 1) ∧
    ((k ≠ localDay ∧ k ≠ localDay - 1) →
      ChatDetail.getFormattedDateHeaderAt dayKey localDay (dayKey k) = dayKey k) := by
  obtain ⟨hT, hY⟩ := hwords
  have htoday : dayKey k = dayKey localDay ↔ k = localDay :=
    ⟨fun h => (hkey localDay h.symm).symm, fun h => by rw [h]⟩
  have hyest : dayKey k = dayKey (localDay - 1) ↔ k = localDay - 1 :=
    ⟨fun h => (hkey (localDay - 1) h.symm).symm, fun h => by rw [h]⟩
  have hdiff : ¬ (k = localDay ∧ k = localDay - 1) := by omega
  unfold ChatDetail.getFormattedDateHeaderAt ChatDetail.getFormattedDateHeader
  simp only []
  refine ⟨?_, ?_, ?_⟩
  · split_ifs with h1 h2
    · exact ⟨fun _ => htoday.mp h1, fun _ => rfl⟩
    · exact ⟨fun h => absurd h (by decide), fun h => absurd (htoday.mpr h) h1⟩
    · exact ⟨fun h => absurd h hT, fun h => absurd (htoday.mpr h) h1⟩
  · split_ifs with h1 h2
    · exact ⟨fun h => absurd h (by decide),
        fun h => absurd ⟨htoday.mp h1, h⟩ hdiff⟩
    · exact ⟨fun _ => hyest.mp h2, fun _ => rfl⟩
    · exact ⟨fun h => absurd h hY, fun h => absurd (hyest.mpr h) h2⟩
  · rintro ⟨h1, h2⟩
    have hne : ¬ dayKey k = dayKey localDay := fun h => h1 (htoday.mp h)
    have hne2 : ¬ dayKey k = dayKey (localDay - 1) := fun h => h2 (hyest.mp h)
    simp only [hne, hne2, if_false]

theorem c18_date_header_today_yesterday_witness :
    (∀ j, sampleDayKey j = sampleDayKey (-1) → j = -1) ∧
    (sampleDayKey (-1) ≠ "Today" ∧ sampleDayKey (-1) ≠ "Yesterday") ∧
    (ChatDetail.getFormattedDateHeaderAt sampleDayKey 0 (sampleDayKey (-1)) = "Yesterday" ↔
      (-1 : Int) = 0 - 1) :=
  have hkey : ∀ j, sampleDayKey j = sampleDayKey (-1) → j = -1 := by
    intro j
    unfold sampleDayKey
    split_ifs <;> simp_all
  ⟨hkey, by decide,
   (c18_date_header_today_yesterday sampleDayKey 0 (-1) hkey (by decide)).2.1⟩

/-! ## Empty thread and empty search term (C19, C20) -/

/-- C19: `getMessageGroups` applied to the empty message list returns the empty mapping:
it has no group and no key, and the render walks no group.  The function is total, so no
error is raised. -/
theorem c19_no_messages_no_groups (toLocaleDateString : Nat → String) :
    ChatDetail.getMessageGroups toLocaleDateString [] = [] ∧
    objectKeys (ChatDetail.getMessageGroups toLocaleDateString []) = [] ∧
    ChatDetail.renderedGroups toLocaleDateString [] = [] := by
  refine ⟨rfl, ?_, ?_⟩
  · simp [ChatDetail.getMessageGroups, objectKeys]
  · simp [ChatDetail.renderedGroups, ChatDetail.getMessageGroups, objectKeys]

/-- C20: for every stored conversation list, `applySearchFilter` with the empty search
term yields the stored list itself, unfiltered and in the same order, and leaves the
stored list as it is. -/
theorem c20_empty_term_shows_stored_list (toLowerCase : String → String)
    (st : ChatListState) :
    (ChatList.applySearchFilter toLowerCase { st with searchTerm := "" }).filteredChats =
      st.chats ∧
    (ChatList.applySearchFilter toLowerCase { st with searchTerm := "" }).chats =
      st.chats := by
  constructor <;> rfl

/-! ## Search among the candidates (C21) -/

theorem userSearchPredicate_iff (toLowerCase : String → String) (term : String)
    (user : AvailableUser) :
    NewChatDialog.searchPredicate toLowerCase (toLowerCase term) user = true ↔
      UserMatchesTerm toLowerCase term user := by
  unfold NewChatDialog.searchPredicate UserMatchesTerm ContainsCI
  rw [Bool.or_eq_true, includes_iff, includes_iff]

/-- C21, as stated, fails: the one-space term is non-empty, yet `applySearchFilter` of
`NewChatDialog` keeps a candidate whose name and email do not contain it. -/
theorem c21_whitespace_term_keeps_nonmatching_user :
    let bob : AvailableUser := { id := 7, name := "Bob", email := "bob@acme.example" }
    let st : NewChatDialogState :=
      { users := [bob], filteredUsers := [], searchTerm := " ", loading := false,
        selectedUser := none }
    st.searchTerm ≠ "" ∧
      bob ∈ (NewChatDialog.applySearchFilter asciiLower st).filteredUsers ∧
      ¬ UserMatchesTerm asciiLower st.searchTerm bob := by
  refine ⟨by decide, by decide, ?_⟩
  intro h
  rw [← userSearchPredicate_iff] at h
  revert h
  decide

/-- C21, amended: for every candidate list and every search term whose trimmed form is
non-empty, `applySearchFilter` of `NewChatDialog` yields exactly the candidates, in their
original order, whose name or email contains the term case-insensitively. -/
theorem c21_user_filter_nonblank (toLowerCase : String → String) (st : NewChatDialogState)
    (hterm : trim st.searchTerm ≠ "") :
    (NewChatDialog.applySearchFilter toLowerCase st).filteredUsers.Sublist st.users ∧
    (∀ user, user ∈ (NewChatDialog.applySearchFilter toLowerCase st).filteredUsers ↔
      user ∈ st.users ∧ UserMatchesTerm toLowerCase st.searchTerm user) ∧
    (∀ user, UserMatchesTerm toLowerCase st.searchTerm user →
      (NewChatDialog.applySearchFilter toLowerCase st).filteredUsers.count user =
        st.users.count user) := by
  have htruthy : truthy (trim st.searchTerm) = true := (truthy_eq_true_iff _).mpr hterm
  have hres : (NewChatDialog.applySearchFilter toLowerCase st).filteredUsers =
      st.users.filter
        (NewChatDialog.searchPredicate toLowerCase (toLowerCase st.searchTerm)) := by
    simp [NewChatDialog.applySearchFilter, htruthy]
  rw [hres]
  refine ⟨List.filter_sublist _, ?_, ?_⟩
  · intro user
    rw [List.mem_filter, userSearchPredicate_iff]
  · intro user hmatch
    rw [List.count_filter ((userSearchPredicate_iff toLowerCase _ user).mpr hmatch)]

theorem c21_user_filter_nonblank_witness :
    trim "ACME" ≠ "" ∧
    (NewChatDialog.applySearchFilter asciiLower
        { users := [{ id := 7, name := "Bob", email := "bob@acme.example" }],
          filteredUsers := [], searchTerm := "ACME", loading := false,
          selectedUser := none }).filteredUsers.Sublist
      [{ id := 7, name := "Bob", email := "bob@acme.example" }] :=
  ⟨by decide,
   (c21_user_filter_nonblank asciiLower
      { users := [{ id := 7, name := "Bob", email := "bob@acme.example" }],
        filteredUsers := [], searchTerm := "ACME", loading := false,
        selectedUser := none } (by decide)).1⟩

/-! ## Silent refresh (C22) -/

/-- C22 on the code: `fetchChats(false)` started while the first load still shows its
spinner (`loading = true`) ends with `loading = false`, whether the fetch succeeds or
fails, for its `finally` clears the flag without looking at `showLoading`;
`fetchMessages(false)` leaves the flag as it was, at its start and at its end. -/
theorem c22_silent_list_refresh_clears_loading (st : ChatListState)
    (transport : Settled (Response (List ChatSummary))) (thread : ChatDetailState)
    (chatId : String) (messagesTransport : Settled (Response (List Message))) :
    (ChatList.fetchChats false ChatList.initial (.ok { data := some [] })).1.loading = false ∧
    (ChatList.fetchChats false ChatList.initial (.error { status := 503 })).1.loading =
      false ∧
    ChatList.initial.loading = true ∧
    (ChatList.fetchChats false st transport).1.loading = false ∧
    (ChatDetail.fetchMessagesIssue false chatId thread).1.loading = thread.loading ∧
    (ChatDetail.fetchMessages false chatId thread messagesTransport).1.loading =
      thread.loading := by
  refine ⟨rfl, rfl, rfl, rfl, rfl, ?_⟩
  cases messagesTransport <;> rfl

/-! ## Start of a polling channel (C23) -/

theorem onTick_count_one (ch : Channel) (r : Request) (hr : r ∈ ch.onTick) :
    ch.onTick.count r = 1 := by
  cases ch with
  | list =>
    simp only [Channel.onTick, List.mem_singleton] at hr
    subst hr
    rfl
  | thread chatId =>
    simp only [Channel.onTick, List.mem_singleton] at hr
    subst hr
    simp [Channel.onTick]
  | badge =>
    simp only [Channel.onTick, List.mem_cons, List.mem_singleton, List.not_mem_nil,
      or_false] at hr
    rcases hr with h | h <;> subst h <;> rfl

theorem issuedOver_count (ch : Channel) (events : List PollEvent) (p : Polling)
    (hset : p.timerSet = true) (hno : PollEvent.cleanup ∉ events) (r : Request)
    (hr : r ∈ ch.onTick) :
    (Polling.issuedOver ch p events).count r = events.count PollEvent.tick := by
  induction events generalizing p with
  | nil => rfl
  | cons e es ih =>
    have hno2 : PollEvent.cleanup ∉ es := fun h => hno (List.mem_cons_of_mem _ h)
    cases e with
    | tick =>
      have hstep : (Polling.step ch p PollEvent.tick).timerSet = true := by
        simp [Polling.step, hset]
      simp only [Polling.issuedOver, Polling.issuedAt, hset, if_true, List.count_append,
        onTick_count_one ch r hr, ih _ hstep hno2, List.count_cons_self]
      omega
    | settle request =>
      have hstep : (Polling.step ch p (PollEvent.settle request)).timerSet = true := by
        simp [Polling.step, hset]
      simp only [Polling.issuedOver, Polling.issuedAt, List.nil_append, ih _ hstep hno2]
      rw [List.count_cons_of_ne (by simp)]
    | cleanup => exact absurd (List.mem_cons_self _ _) hno

theorem run_ticks_inFlight (ch : Channel) (n : Nat) (p : Polling)
    (hset : p.timerSet = true) :
    (Polling.run ch p (List.replicate n PollEvent.tick)).inFlight =
      p.inFlight ++ (List.replicate n ch.onTick).flatten := by
  induction n generalizing p with
  | zero => simp [Polling.run]
  | succ k ih =>
    have hstep : (Polling.step ch p PollEvent.tick).timerSet = true := by
      simp [Polling.step, hset]
    have hrun : Polling.run ch p (List.replicate (k + 1) PollEvent.tick) =
        Polling.run ch (Polling.step ch p PollEvent.tick) (List.replicate k PollEvent.tick) := by
      simp [Polling.run, List.replicate_succ]
    rw [hrun, ih _ hstep]
    simp [Polling.step, hset, List.replicate_succ]

theorem run_count_bounds (ch : Channel) (events : List PollEvent) (p : Polling)
    (hset : p.timerSet = true) (hno : PollEvent.cleanup ∉ events) (r : Request)
    (hr : r ∈ ch.onTick) :
    (Polling.run ch p events).inFlight.count r ≤
        p.inFlight.count r + events.count PollEvent.tick ∧
      p.inFlight.count r + events.count PollEvent.tick ≤
        (Polling.run ch p events).inFlight.count r +
          events.count (PollEvent.settle r) := by
  induction events generalizing p with
  | nil => simp [Polling.run]
  | cons e es ih =>
    have hno2 : PollEvent.cleanup ∉ es := fun h => hno (List.mem_cons_of_mem _ h)
    have hrun : Polling.run ch p (e :: es) = Polling.run ch (Polling.step ch p e) es := rfl
    rw [hrun]
    cases e with
    | tick =>
      have hstep : (Polling.step ch p PollEvent.tick).timerSet = true := by
        simp [Polling.step, hset]
      have hcount : (Polling.step ch p PollEvent.tick).inFlight.count r =
          p.inFlight.count r + 1 := by
        simp [Polling.step, hset, List.count_append, onTick_count_one ch r hr]
      obtain ⟨h1, h2⟩ := ih _ hstep hno2
      rw [hcount] at h1 h2
      rw [List.count_cons_self, List.count_cons_of_ne (by simp)]
      omega
    | settle request =>
      have hstep : (Polling.step ch p (PollEvent.settle request)).timerSet = true := by
        simp [Polling.step, hset]
      obtain ⟨h1, h2⟩ := ih _ hstep hno2
      have hstepFlight : (Polling.step ch p (PollEvent.settle request)).inFlight =
          p.inFlight.erase request := rfl
      rw [hstepFlight] at h1 h2
      rw [List.count_cons_of_ne (by simp)]
      by_cases hreq : request = r
      · subst hreq
        rw [List.count_erase_self] at h1 h2
        rw [List.count_cons_self]
        omega
      · rw [List.count_erase_of_ne (fun h => hreq h.symm)] at h1 h2
        rw [List.count_cons_of_ne (by simpa using fun h => hreq h.symm)]
        omega
    | cleanup => exact absurd (List.mem_cons_self _ _) hno

/-- C23: on the start of a polling channel (mount of `ChatList`, of `ChatDetail` with a
conversation id, of `ChatNavIcon`) the channel's fetch task is invoked once by the mount
effect itself, before any tick: `getAllChats` for the list, `getMessages` (after
`getChatInfo`) for the thread, `getUnreadCount` and `getRecentChats` for the badge.
Thereafter every tick issues the same requests once more: after `n` ticks during which
nothing settles, each is in flight `1 + n` times, and over any schedule without cleanup it
has been issued `1 + ticks` times, in flight as long as it has not settled.  The intervals
are 10000 ms for the list, 5000 ms for the thread and 30000 ms for the badge. -/
theorem c23_fetch_at_mount_then_each_tick (ch : Channel) (events : List PollEvent) (n : Nat)
    (r : Request) (hset : (Polling.mount ch).timerSet = true)
    (hno : PollEvent.cleanup ∉ events) (hr : r ∈ ch.onTick) :
    ((Polling.mount Channel.list).inFlight = [Request.getAllChats] ∧
     Channel.list.onTick = [Request.getAllChats] ∧
     (∀ chatId, (Polling.mount (Channel.thread chatId)).inFlight =
        if truthy chatId then [Request.getChatInfo chatId, Request.getMessages chatId]
        else []) ∧
     (∀ chatId, (Channel.thread chatId).onTick = [Request.getMessages chatId]) ∧
     (Polling.mount Channel.badge).inFlight =
        [Request.getUnreadCount, Request.getRecentChats] ∧
     Channel.badge.onTick = [Request.getUnreadCount, Request.getRecentChats]) ∧
    (Polling.mount ch).inFlight.count r = 1 ∧
    ((Polling.run ch (Polling.mount ch) (List.replicate n PollEvent.tick)).inFlight =
        (Polling.mount ch).inFlight ++ (List.replicate n ch.onTick).flatten ∧
     (Polling.run ch (Polling.mount ch) (List.replicate n PollEvent.tick)).inFlight.count r =
        1 + n) ∧
    ((Polling.run ch (Polling.mount ch) events).inFlight.count r ≤
        1 + events.count PollEvent.tick ∧
     1 + events.count PollEvent.tick ≤
        (Polling.run ch (Polling.mount ch) events).inFlight.count r +
          events.count (PollEvent.settle r)) ∧
    (∀ p e, (Polling.step ch p e).inFlight =
      (match e with
        | PollEvent.settle settled => p.inFlight.erase settled
        | _ => p.inFlight) ++ Polling.issuedAt ch p e) ∧
    ((Polling.mount ch).inFlight ++
        Polling.issuedOver ch (Polling.mount ch) events).count r =
      1 + events.count PollEvent.tick ∧
    Channel.list.intervalMs = 10000 ∧
    (∀ chatId, (Channel.thread chatId).intervalMs = 5000) ∧
    Channel.badge.intervalMs = 30000 := by
  have hmount : (Polling.mount ch).inFlight.count r = 1 := by
    cases ch with
    | list =>
      simp only [Channel.onTick, List.mem_singleton] at hr
      subst hr
      rfl
    | thread chatId =>
      simp only [Channel.onTick, List.mem_singleton] at hr
      subst hr
      have hid : truthy chatId = true := hset
      simp [Polling.mount, Channel.onMount, hid]
    | badge =>
      simp only [Channel.onTick, List.mem_cons, List.mem_singleton, List.not_mem_nil,
        or_false] at hr
      rcases hr with h | h <;> subst h <;> rfl
  have hticks := run_ticks_inFlight ch n (Polling.mount ch) hset
  have hbounds := run_count_bounds ch events (Polling.mount ch) hset hno r hr
  rw [hmount] at hbounds
  refine ⟨⟨rfl, rfl, ?_, fun _ => rfl, rfl, rfl⟩, hmount, ⟨hticks, ?_⟩, hbounds, ?_, ?_,
    rfl, fun _ => rfl, rfl⟩
  · intro chatId
    by_cases hid : truthy chatId = true <;> simp [Polling.mount, Channel.onMount, hid]
  · have hb := run_count_bounds ch (List.replicate n PollEvent.tick) (Polling.mount ch) hset
      (by simp [List.mem_replicate]) r hr
    rw [hmount] at hb
    have h1 : (List.replicate n PollEvent.tick).count PollEvent.tick = n := by simp
    have h2 : (List.replicate n PollEvent.tick).count (PollEvent.settle r) = 0 := by
      rw [List.count_eq_zero]
      simp [List.mem_replicate]
    rw [h1, h2] at hb
    omega
  · intro p e
    cases e with
    | tick =>
      by_cases ht : p.timerSet = true
      · simp [Polling.step, Polling.issuedAt, ht]
      · simp [Polling.step, Polling.issuedAt, ht]
    | settle settled => simp [Polling.step, Polling.issuedAt]
    | cleanup => simp [Polling.step, Polling.issuedAt]
  · rw [List.count_append, hmount, issuedOver_count ch events _ hset hno r hr]

theorem c23_fetch_at_mount_then_each_tick_witness :
    ((Polling.mount (Channel.thread "42")).timerSet = true ∧
      (PollEvent.cleanup ∉
        [PollEvent.settle (Request.getChatInfo "42"), PollEvent.tick,
         PollEvent.settle (Request.getMessages "42"), PollEvent.tick]) ∧
      Request.getMessages "42" ∈ (Channel.thread "42").onTick) ∧
    (Polling.run (Channel.thread "42") (Polling.mount (Channel.thread "42"))
        (List.replicate 2 PollEvent.tick)).inFlight.count (Request.getMessages "42") =
      1 + 2 ∧
    ((Polling.mount Channel.badge).timerSet = true ∧
      Request.getRecentChats ∈ Channel.badge.onTick) ∧
    (Polling.run Channel.badge (Polling.mount Channel.badge)
        (List.replicate 3 PollEvent.tick)).inFlight.count Request.getRecentChats = 1 + 3 ∧
    ((Polling.mount Channel.list).timerSet = true ∧
      Request.getAllChats ∈ Channel.list.onTick) ∧
    (Polling.run Channel.list (Polling.mount Channel.list)
        (List.replicate 1 PollEvent.tick)).inFlight =
      (Polling.mount Channel.list).inFlight ++
        (List.replicate 1 Channel.list.onTick).flatten :=
  ⟨⟨by decide, by decide, by decide⟩,
   (c23_fetch_at_mount_then_each_tick (Channel.thread "42")
      [PollEvent.settle (Request.getChatInfo "42"), PollEvent.tick,
       PollEvent.settle (Request.getMessages "42"), PollEvent.tick] 2
      (Request.getMessages "42") (by decide) (by decide) (by decide)).2.2.1.2,
   ⟨by decide, by decide⟩,
   (c23_fetch_at_mount_then_each_tick Channel.badge [] 3 Request.getRecentChats
      (by decide) (by decide) (by decide)).2.2.1.2,
   ⟨by decide, by decide⟩,
   (c23_fetch_at_mount_then_each_tick Channel.list [] 1 Request.getAllChats
      (by decide) (by decide) (by decide)).2.2.1.1⟩

/-! ## Content sent (C26) -/

/-- C26: for every compose content that passes the blank check, `handleSendMessage` hands
the compose field to `ChatService.sendMessage` as it stands, leading and trailing white
space included: the first request issued is `sendMessage` with that very string, and no
`sendMessage` with another content is issued. -/
theorem c26_content_sent_verbatim (chatId : String) (st : ChatDetailState)
    (sendTransport : Settled (Response Unit))
    (messagesTransport : Settled (Response (List Message)))
    (hcontent : trim st.newMessage ≠ "") :
    (ChatDetail.handleSendMessage chatId st sendTransport messagesTransport).requests.head? =
      some (Request.sendMessage chatId st.newMessage) ∧
    (∀ other content, Request.sendMessage other content ∈
        (ChatDetail.handleSendMessage chatId st sendTransport messagesTransport).requests →
      other = chatId ∧ content = st.newMessage) := by
  have h : truthy (trim st.newMessage) = true := (truthy_eq_true_iff _).mpr hcontent
  cases sendTransport with
  | error err =>
    constructor
    · simp [ChatDetail.handleSendMessage, h, ChatService.sendMessage]
    · intro other content hmem
      simpa [ChatDetail.handleSendMessage, h, ChatService.sendMessage] using hmem
  | ok ack =>
    have hreq : (ChatDetail.handleSendMessage chatId st (.ok ack) messagesTransport).requests =
        Request.sendMessage chatId st.newMessage :: Request.getMessages chatId ::
          (ChatDetail.fetchMessagesResume false chatId
            { st with sending := true, newMessage := "" }
            (ChatService.getMessages messagesTransport)).2 := by
      simp [ChatDetail.handleSendMessage, h, ChatService.sendMessage, ChatDetail.fetchMessages,
        ChatDetail.fetchMessagesIssue]
    have hrest : ∀ other content, Request.sendMessage other content ∉
        (ChatDetail.fetchMessagesResume false chatId
          { st with sending := true, newMessage := "" }
          (ChatService.getMessages messagesTransport)).2 := by
      intro other content
      unfold ChatDetail.fetchMessagesResume
      cases ChatService.getMessages messagesTransport with
      | error e => simp
      | ok response => cases hasMessages response <;> simp
    constructor
    · rw [hreq]
      rfl
    · intro other content hmem
      rw [hreq] at hmem
      simp only [List.mem_cons, Request.sendMessage.injEq, reduceCtorEq, false_or] at hmem
      rcases hmem with h1 | h2
      · exact h1
      · exact absurd h2 (hrest other content)

theorem c26_content_sent_verbatim_witness :
    trim "  hello  " ≠ "" ∧
    (ChatDetail.handleSendMessage "42" { ChatDetail.initial with newMessage := "  hello  " }
        (.ok { data := none }) (.ok { data := some [] })).requests.head? =
      some (Request.sendMessage "42" "  hello  ") :=
  ⟨by decide,
   (c26_content_sent_verbatim "42" { ChatDetail.initial with newMessage := "  hello  " }
      (.ok { data := none }) (.ok { data := some [] }) (by decide)).1⟩

/-! ## Administrator and manager (C27) -/

/-- C27 on the code: for the user `{ role: 'ADMIN' }`, whose role is carried in a single
string, `isAdmin()` of `AuthContext` is true and `isManager()` is false; with a `roles`
array an administrator is a manager, and in `AuthService` an administrator always is. -/
theorem c27_role_string_admin_is_no_manager (roles : List String) (role : Option String)
    (stored : Option CurrentUser) :
    AuthContext.isAdmin (some { roles := none, role := some "ADMIN" }) = true ∧
    AuthContext.isManager (some { roles := none, role := some "ADMIN" }) = false ∧
    (!AuthContext.isAdmin (some { roles := some roles, role := role }) ||
      AuthContext.isManager (some { roles := some roles, role := role })) = true ∧
    (!AuthService.isAdmin stored || AuthService.isManager stored) = true := by
  refine ⟨by decide, by decide, ?_, ?_⟩
  · cases hadm : AuthContext.isAdmin (some { roles := some roles, role := role }) with
    | false => rfl
    | true =>
      simp only [AuthContext.isAdmin, Bool.or_eq_true] at hadm
      simp only [Bool.not_true, Bool.false_or, AuthContext.isManager, List.any_eq_true]
      rcases hadm with h | h
      · exact ⟨"ADMIN", List.elem_iff.mp h, by decide⟩
      · exact ⟨"ROLE_ADMIN", List.elem_iff.mp h, by decide⟩
  · unfold AuthService.isManager AuthService.isAdmin
    cases AuthService.hasRole stored "ADMIN" <;> simp

/-! ## Growth polarity (C29) -/

/-- C29 on the code: with 5 products after 10, and 5 low-stock items after 10, the product
metric is taken for the low-stock metric, because `isLowStockMetric` compares the two
values and not the metric, and its `positive` is true although 5 < 10.  In general, for a
non-null, non-zero previous value, `positive` is `current <= previous` when the pair of
values is that of the low-stock metric and `current >= previous` otherwise. -/
theorem c29_polarity_follows_values (percentOf : Int → Int → Int) (stats : DashboardStats)
    (current previous : Int) :
    (Dashboard.productGrowth percentOf
        { productCount := 5, previousProductCount := some 10, categoryCount := 3,
          previousCategoryCount := some 3, supplierCount := 2, previousSupplierCount := some 2,
          lowStockCount := 5, previousLowStockCount := some 10, totalQuantity := 40,
          previousTotalQuantity := some 40 }).positive = true ∧
    (Dashboard.calculateGrowth percentOf stats current (some previous)).positive =
      (if previous = 0 then true
       else if current = stats.lowStockCount ∧ some previous = stats.previousLowStockCount then
         decide (current ≤ previous)
       else decide (current ≥ previous)) ∧
    (Dashboard.lowStockGrowth percentOf stats).positive =
      (match stats.previousLowStockCount with
       | none => true
       | some prev => if prev = 0 then true else decide (stats.lowStockCount ≤ prev)) := by
  refine ⟨?_, ?_, ?_⟩
  · simp [Dashboard.productGrowth, Dashboard.calculateGrowth]
  · unfold Dashboard.calculateGrowth
    by_cases hp : previous = 0
    · by_cases hc : current = 0 <;> simp [hp, hc]
    · by_cases hlow : current = stats.lowStockCount ∧
          some previous = stats.previousLowStockCount
      · simp [hp, hlow.1.symm, hlow.2.symm]
      · simp only [hp, false_and, if_false, hlow]
        have hb : (decide (current = stats.lowStockCount) &&
            decide (some previous = stats.previousLowStockCount)) = false := by
          rw [Bool.and_eq_false_iff]
          by_cases h1 : current = stats.lowStockCount
          · right
            simpa using fun h2 => hlow ⟨h1, h2⟩
          · left
            simpa using h1
        simp [hb]
  · unfold Dashboard.lowStockGrowth Dashboard.calculateGrowth
    cases hprev : stats.previousLowStockCount with
    | none => rfl
    | some prev =>
      by_cases hp : prev = 0
      · by_cases hc : stats.lowStockCount = 0 <;> simp [hp, hc]
      · simp [hp]

/-! ## The groups are a partition (C24) -/

theorem sum_indicator_of_nodup (keys : List String) (k : String) (hnd : keys.Nodup)
    (hmem : k ∈ keys) :
    (keys.map (fun key => if k = key then 1 else 0)).sum = 1 := by
  induction keys with
  | nil => exact absurd hmem (List.not_mem_nil _)
  | cons a rest ih =>
    rw [List.nodup_cons] at hnd
    obtain ⟨hnot, hrest⟩ := hnd
    by_cases hka : k = a
    · subst hka
      have hzero : (rest.map (fun key => if k = key then 1 else 0)).sum = 0 := by
        apply List.sum_eq_zero
        intro x hx
        obtain ⟨key, hkey, rfl⟩ := List.mem_map.mp hx
        have : ¬ k = key := fun h => hnot (h ▸ hkey)
        simp [this]
      simp [hzero]
    · have hmem2 : k ∈ rest := by
        rcases List.mem_cons.mp hmem with h | h
        · exact absurd h hka
        · exact h
      simp [hka, ih hrest hmem2]

theorem sum_filter_lengths (day : Message → String) (keys : List String)
    (messages : List Message) (hnd : keys.Nodup) (hcover : ∀ m ∈ messages, day m ∈ keys) :
    (keys.map (fun key => (messages.filter (fun m => decide (day m = key))).length)).sum =
      messages.length := by
  induction messages with
  | nil => simp
  | cons m rest ih =>
    have hrest : ∀ x ∈ rest, day x ∈ keys := fun x hx => hcover x (List.mem_cons_of_mem _ hx)
    have hsplit : ∀ key,
        ((m :: rest).filter (fun x => decide (day x = key))).length =
          (rest.filter (fun x => decide (day x = key))).length +
            (if day m = key then 1 else 0) := by
      intro key
      by_cases h : day m = key <;> simp [List.filter_cons, h]
    simp only [hsplit, List.sum_map_add, ih hrest,
      sum_indicator_of_nodup keys (day m) hnd (hcover m (List.mem_cons_self _ _)),
      List.length_cons]

/-- C24: for every message list, `getMessageGroups` is a partition of the input.  There is
one group per calendar day of the list; a message lies in a group exactly when it is a
message of the input and the group is the one keyed by its own local calendar day, and
that group holds the messages of its day in their relative input order; the group sizes
sum to the input length. -/
theorem c24_groups_partition_messages (toLocaleDateString : Nat → String)
    (messages : List Message) :
    ((ChatDetail.getMessageGroups toLocaleDateString messages).map Prod.fst).Nodup ∧
    (∀ group m,
      (group ∈ ChatDetail.getMessageGroups toLocaleDateString messages ∧ m ∈ group.2) ↔
      (m ∈ messages ∧
        group = (toLocaleDateString m.timestamp,
          messages.filter
            (fun x => decide (toLocaleDateString x.timestamp =
              toLocaleDateString m.timestamp))))) ∧
    (((ChatDetail.getMessageGroups toLocaleDateString messages).map
        (fun group => group.2.length)).sum = messages.length) ∧
    ((ChatDetail.getMessageGroups toLocaleDateString messages).map Prod.snd).Forall
      (fun members => members.Sublist messages) := by
  have hkeys := getMessageGroups_keys toLocaleDateString messages
  refine ⟨?_, ?_, ?_, ?_⟩
  · rw [hkeys]
    exact firstSeen_nodup _
  · intro group m
    rw [getMessageGroups_eq]
    constructor
    · rintro ⟨hgroup, hm⟩
      obtain ⟨key, hkey, rfl⟩ := List.mem_map.mp hgroup
      rw [List.mem_filter] at hm
      obtain ⟨hmem, hday⟩ := hm
      have hday2 : toLocaleDateString m.timestamp = key := by simpa using hday
      subst hday2
      exact ⟨hmem, rfl⟩
    · rintro ⟨hmem, rfl⟩
      refine ⟨List.mem_map.mpr ⟨toLocaleDateString m.timestamp, ?_, rfl⟩, ?_⟩
      · rw [mem_firstSeen]
        exact List.mem_map.mpr ⟨m, hmem, rfl⟩
      · rw [List.mem_filter]
        exact ⟨hmem, by simp⟩
  · rw [getMessageGroups_eq, List.map_map]
    exact sum_filter_lengths (fun m => toLocaleDateString m.timestamp) _ messages
      (firstSeen_nodup _)
      (fun m hm => (mem_firstSeen _ _).mpr (List.mem_map.mpr ⟨m, hm, rfl⟩))
  · rw [getMessageGroups_eq, List.map_map, List.forall_iff_forall_mem]
    intro members hmembers
    obtain ⟨key, _, rfl⟩ := List.mem_map.mp hmembers
    exact List.filter_sublist _

/-! ## Relative time (C25) -/

theorem append_singleton_ne (s u : String) (c e : Char) (hce : c ≠ e) :
    s ++ String.singleton c ≠ u ++ String.singleton e := by
  intro h
  have hlast : (s ++ String.singleton c).data.getLast? =
      (u ++ String.singleton e).data.getLast? := by rw [h]
  rw [String.data_append, String.data_append] at hlast
  have hc : (String.singleton c).data = [c] := rfl
  have he : (String.singleton e).data = [e] := rfl
  rw [hc, he, List.getLast?_concat, List.getLast?_concat] at hlast
  exact hce (Option.some.inj hlast)

/-- The string `formatRelativeTime` returns, return statement by return statement. -/
theorem formatRelativeTime_eq (toLocaleDateString : Nat → String) (now t : Nat) :
    ChatList.formatRelativeTime toLocaleDateString now (some t) =
      (if ((now : Int) - t) / 60000 < 1 then "no" ++ String.singleton 'w'
       else if ((now : Int) - t) / 60000 < 60 then
         toString (((now : Int) - t) / 60000) ++ String.singleton 'm'
       else if ((now : Int) - t) / 3600000 < 24 then
         toString (((now : Int) - t) / 3600000) ++ String.singleton 'h'
       else if ((now : Int) - t) / 86400000 < 7 then
         toString (((now : Int) - t) / 86400000) ++ String.singleton 'd'
       else toLocaleDateString t) := by
  have hh : (((now : Int) - t) / 60000) / 60 = ((now : Int) - t) / 3600000 := by omega
  have hd2 : (((now : Int) - t) / 3600000) / 24 = ((now : Int) - t) / 86400000 := by omega
  simp only [ChatList.formatRelativeTime, ChatList.relativeTime, hh, hd2]
  split_ifs <;> rfl

/-- C25: for every non-empty timestamp `t` and clock value `now`, with `d = now - t`
milliseconds, `formatRelativeTime` (the same function in `ChatList` and `ChatNavIcon`)
returns `now` iff `d < 60000` (every future timestamp included), `floor(d/60000)` followed
by `m` iff `60000 <= d < 3600000`, `floor(d/3600000)` followed by `h` iff
`3600000 <= d < 86400000`, `floor(d/86400000)` followed by `d` iff
`86400000 <= d < 604800000`, and the locale date string iff `604800000 <= d`; the nested
floors agree with the direct divisions.  The equivalences are stated on the return
statement taken and, as long as the locale date string is not returned, on the returned
string itself. -/
theorem c25_relative_time_brackets (toLocaleDateString : Nat → String) (now t : Nat) :
    (ChatList.relativeTime now (some t) = RelativeTime.now ↔ (now : Int) - t < 60000) ∧
    (ChatList.relativeTime now (some t) = RelativeTime.minutes (((now : Int) - t) / 60000) ↔
      60000 ≤ (now : Int) - t ∧ (now : Int) - t < 3600000) ∧
    (ChatList.relativeTime now (some t) = RelativeTime.hours (((now : Int) - t) / 3600000) ↔
      3600000 ≤ (now : Int) - t ∧ (now : Int) - t < 86400000) ∧
    (ChatList.relativeTime now (some t) = RelativeTime.days (((now : Int) - t) / 86400000) ↔
      86400000 ≤ (now : Int) - t ∧ (now : Int) - t < 604800000) ∧
    (ChatList.relativeTime now (some t) = RelativeTime.date t ↔
      604800000 ≤ (now : Int) - t) ∧
    ((((now : Int) - t) / 60000) / 60 = ((now : Int) - t) / 3600000 ∧
      ((((now : Int) - t) / 60000) / 60) / 24 = ((now : Int) - t) / 86400000) ∧
    ChatNavIcon.relativeTime now (some t) = ChatList.relativeTime now (some t) ∧
    ChatNavIcon.formatRelativeTime toLocaleDateString now (some t) =
      ChatList.formatRelativeTime toLocaleDateString now (some t) ∧
    ((now : Int) - t < 60000 →
      ChatList.formatRelativeTime toLocaleDateString now (some t) = "now") ∧
    (604800000 ≤ (now : Int) - t →
      ChatList.formatRelativeTime toLocaleDateString now (some t) = toLocaleDateString t) ∧
    ((60000 ≤ (now : Int) - t ∧ (now : Int) - t < 3600000) →
      ChatList.formatRelativeTime toLocaleDateString now (some t) =
        toString (((now : Int) - t) / 60000) ++ "m") ∧
    ((3600000 ≤ (now : Int) - t ∧ (now : Int) - t < 86400000) →
      ChatList.formatRelativeTime toLocaleDateString now (some t) =
        toString (((now : Int) - t) / 3600000) ++ "h") ∧
    ((86400000 ≤ (now : Int) - t ∧ (now : Int) - t < 604800000) →
      ChatList.formatRelativeTime toLocaleDateString now (some t) =
        toString (((now : Int) - t) / 86400000) ++ "d") ∧
    ((now : Int) - t < 604800000 →
      ((ChatList.formatRelativeTime toLocaleDateString now (some t) = "now" ↔
          (now : Int) - t < 60000) ∧
       (ChatList.formatRelativeTime toLocaleDateString now (some t) =
          toString (((now : Int) - t) / 60000) ++ "m" ↔
          60000 ≤ (now : Int) - t ∧ (now : Int) - t < 3600000) ∧
       (ChatList.formatRelativeTime toLocaleDateString now (some t) =
          toString (((now : Int) - t) / 3600000) ++ "h" ↔
          3600000 ≤ (now : Int) - t ∧ (now : Int) - t < 86400000) ∧
       (ChatList.formatRelativeTime toLocaleDateString now (some t) =
          toString (((now : Int) - t) / 86400000) ++ "d" ↔
          86400000 ≤ (now : Int) - t ∧ (now : Int) - t < 604800000))) ∧
    (ChatList.formatRelativeTime toLocaleDateString 3500000 (some 0) = "58m" ∧
     ChatList.formatRelativeTime toLocaleDateString 7200000 (some 0) = "2h" ∧
     ChatList.formatRelativeTime toLocaleDateString 259200000 (some 0) = "3d" ∧
     ChatList.formatRelativeTime toLocaleDateString 0 (some 5000) = "now" ∧
     ChatList.formatRelativeTime toLocaleDateString 604800000 (some 0) =
       toLocaleDateString 0) := by
  have hh : (((now : Int) - t) / 60000) / 60 = ((now : Int) - t) / 3600000 := by omega
  have hd : ((((now : Int) - t) / 60000) / 60) / 24 = ((now : Int) - t) / 86400000 := by omega
  have hval : ChatList.relativeTime now (some t) =
      (if ((now : Int) - t) / 60000 < 1 then RelativeTime.now
       else if ((now : Int) - t) / 60000 < 60 then
         RelativeTime.minutes (((now : Int) - t) / 60000)
       else if ((now : Int) - t) / 3600000 < 24 then
         RelativeTime.hours (((now : Int) - t) / 3600000)
       else if ((now : Int) - t) / 86400000 < 7 then
         RelativeTime.days (((now : Int) - t) / 86400000)
       else RelativeTime.date t) := by
    have hd2 : (((now : Int) - t) / 3600000) / 24 = ((now : Int) - t) / 86400000 := by omega
    simp only [ChatList.relativeTime, hh, hd2]
  have hfmt := formatRelativeTime_eq toLocaleDateString now t
  have hm : ("m" : String) = String.singleton 'm' := rfl
  have hhr : ("h" : String) = String.singleton 'h' := rfl
  have hdy : ("d" : String) = String.singleton 'd' := rfl
  have hnow : ("now" : String) = "no" ++ String.singleton 'w' := by decide
  refine ⟨?_, ?_, ?_, ?_, ?_, ⟨hh, hd⟩, rfl, rfl, ?_, ?_, ?_, ?_, ?_, ?_, ?_⟩
  · rw [hval]
    split_ifs <;> simp <;> omega
  · rw [hval]
    split_ifs <;> simp <;> omega
  · rw [hval]
    split_ifs <;> simp <;> omega
  · rw [hval]
    split_ifs <;> simp <;> omega
  · rw [hval]
    split_ifs <;> simp <;> omega
  · intro hlt
    have h1 : ((now : Int) - t) / 60000 < 1 := by omega
    rw [hfmt, if_pos h1, hnow]
  · intro hge
    have h1 : ¬ ((now : Int) - t) / 60000 < 1 := by omega
    have h2 : ¬ ((now : Int) - t) / 60000 < 60 := by omega
    have h3 : ¬ ((now : Int) - t) / 3600000 < 24 := by omega
    have h4 : ¬ ((now : Int) - t) / 86400000 < 7 := by omega
    rw [hfmt, if_neg h1, if_neg h2, if_neg h3, if_neg h4]
  · rintro ⟨hlo, hhi⟩
    have h1 : ¬ ((now : Int) - t) / 60000 < 1 := by omega
    have h2 : ((now : Int) - t) / 60000 < 60 := by omega
    rw [hfmt, if_neg h1, if_pos h2, hm]
  · rintro ⟨hlo, hhi⟩
    have h1 : ¬ ((now : Int) - t) / 60000 < 1 := by omega
    have h2 : ¬ ((now : Int) - t) / 60000 < 60 := by omega
    have h3 : ((now : Int) - t) / 3600000 < 24 := by omega
    rw [hfmt, if_neg h1, if_neg h2, if_pos h3, hhr]
  · rintro ⟨hlo, hhi⟩
    have h1 : ¬ ((now : Int) - t) / 60000 < 1 := by omega
    have h2 : ¬ ((now : Int) - t) / 60000 < 60 := by omega
    have h3 : ¬ ((now : Int) - t) / 3600000 < 24 := by omega
    have h4 : ((now : Int) - t) / 86400000 < 7 := by omega
    rw [hfmt, if_neg h1, if_neg h2, if_neg h3, if_pos h4, hdy]
  · intro hlt
    rw [hfmt, hm, hhr, hdy, hnow]
    have h4 : ((now : Int) - t) / 86400000 < 7 := by omega
    refine ⟨?_, ?_, ?_, ?_⟩
    · split_ifs with h1 h2 h3
      · exact ⟨fun _ => by omega, fun _ => rfl⟩
      · exact ⟨fun h => absurd h (append_singleton_ne _ _ _ _ (by decide)),
          fun h => by omega⟩
      · exact ⟨fun h => absurd h (append_singleton_ne _ _ _ _ (by decide)),
          fun h => by omega⟩
      · exact ⟨fun h => absurd h (append_singleton_ne _ _ _ _ (by decide)),
          fun h => by omega⟩
    · split_ifs with h1 h2 h3
      · exact ⟨fun h => absurd h (append_singleton_ne _ _ _ _ (by decide)),
          fun h => by omega⟩
      · exact ⟨fun _ => by omega, fun _ => rfl⟩
      · exact ⟨fun h => absurd h (append_singleton_ne _ _ _ _ (by decide)),
          fun h => by omega⟩
      · exact ⟨fun h => absurd h (append_singleton_ne _ _ _ _ (by decide)),
          fun h => by omega⟩
    · split_ifs with h1 h2 h3
      · exact ⟨fun h => absurd h (append_singleton_ne _ _ _ _ (by decide)),
          fun h => by omega⟩
      · exact ⟨fun h => absurd h (append_singleton_ne _ _ _ _ (by decide)),
          fun h => by omega⟩
      · exact ⟨fun _ => by omega, fun _ => rfl⟩
      · exact ⟨fun h => absurd h (append_singleton_ne _ _ _ _ (by decide)),
          fun h => by omega⟩
    · split_ifs with h1 h2 h3
      · exact ⟨fun h => absurd h (append_singleton_ne _ _ _ _ (by decide)),
          fun h => by omega⟩
      · exact ⟨fun h => absurd h (append_singleton_ne _ _ _ _ (by decide)),
          fun h => by omega⟩
      · exact ⟨fun h => absurd h (append_singleton_ne _ _ _ _ (by decide)),
          fun h => by omega⟩
      · exact ⟨fun _ => by omega, fun _ => rfl⟩
  · refine ⟨?_, ?_, ?_, ?_, ?_⟩ <;> rfl

/-! ## Registration form (C28): lemmas -/

theorem mem_dropWhile_of_not {α : Type} (p : α → Bool) (l : List α) (c : α) (hc : c ∈ l)
    (hp : p c = false) : c ∈ l.dropWhile p := by
  induction l with
  | nil => exact absurd hc (List.not_mem_nil _)
  | cons a rest ih =>
    by_cases ha : p a = true
    · rw [List.dropWhile_cons_of_pos ha]
      rcases List.mem_cons.mp hc with h | h
      · subst h
        rw [hp] at ha
        exact absurd ha (by decide)
      · exact ih h
    · rw [List.dropWhile_cons_of_neg ha]
      exact hc

theorem trim_truthy_of_mem (s : String) (c : Char) (hc : c ∈ s.data)
    (hws : isWhiteSpace c = false) : truthy (trim s) = true := by
  have h1 : c ∈ s.data.dropWhile isWhiteSpace := mem_dropWhile_of_not _ _ _ hc hws
  have h2 : c ∈ (s.data.dropWhile isWhiteSpace).reverse := List.mem_reverse.mpr h1
  have h3 : c ∈ ((s.data.dropWhile isWhiteSpace).reverse.dropWhile isWhiteSpace) :=
    mem_dropWhile_of_not _ _ _ h2 hws
  have h4 : c ∈ (trim s).data := by
    unfold trim
    exact List.mem_reverse.mpr h3
  unfold truthy
  cases hd : (trim s).data with
  | nil => rw [hd] at h4; exact absurd h4 (List.not_mem_nil _)
  | cons a rest => rfl

theorem validateEmail_truthy (email : String)
    (h : CompanyRegister.validateEmail email = true) : truthy (trim email) = true := by
  unfold CompanyRegister.validateEmail at h
  cases hd : email.data.dropWhile isEmailChar with
  | nil => simp [hd] at h
  | cons c domain =>
    simp only [hd, Bool.and_eq_true, beq_iff_eq] at h
    have hc : c = '@' := h.1.1.1
    subst hc
    have hmem : '@' ∈ email.data :=
      (List.dropWhile_sublist isEmailChar).subset (hd ▸ List.mem_cons_self _ _)
    exact trim_truthy_of_mem email '@' hmem (by decide)

theorem validateCUI_truthy (cui : String) (h : CompanyRegister.validateCUI cui = true) :
    truthy (trim cui) = true := by
  unfold CompanyRegister.validateCUI at h
  unfold truthy
  cases hd : (trim cui).data with
  | nil => simp [hd] at h
  | cons a rest => rfl

theorem jsLength_truthy (s : String) (h : 2 ≤ jsLength s) : truthy s = true := by
  unfold truthy
  cases hd : s.data with
  | nil => simp [jsLength, hd] at h
  | cons a rest => rfl

theorem passed_eq_five_iff (checks : PasswordChecks) :
    checks.passed = 5 ↔
      (checks.length = true ∧ checks.uppercase = true ∧ checks.lowercase = true ∧
        checks.number = true ∧ checks.special = true) := by
  obtain ⟨a, b, c, d, e⟩ := checks
  cases a <;> cases b <;> cases c <;> cases d <;> cases e <;> decide

theorem strength_full_iff (password : String) :
    CompanyRegister.getPasswordStrength password = 100 ↔
      ((CompanyRegister.validatePassword password).length = true ∧
        (CompanyRegister.validatePassword password).uppercase = true ∧
        (CompanyRegister.validatePassword password).lowercase = true ∧
        (CompanyRegister.validatePassword password).number = true ∧
        (CompanyRegister.validatePassword password).special = true) := by
  rw [← passed_eq_five_iff]
  unfold CompanyRegister.getPasswordStrength
  by_cases ht : truthy password = true
  · simp only [ht, Bool.not_true, Bool.false_eq_true, if_false]
    constructor
    · intro h
      have h5 : ((CompanyRegister.validatePassword password).passed : ℚ) = 5 := by linarith
      exact_mod_cast h5
    · intro h
      rw [h]
      norm_num
  · have hf : truthy password = false := by simpa using ht
    simp only [hf, Bool.not_false, if_true]
    constructor
    · intro h
      norm_num at h
    · intro h
      have hlen := ((passed_eq_five_iff _).mp h).1
      have h8 : 8 ≤ jsLength password := by
        simpa [CompanyRegister.validatePassword] using hlen
      have := jsLength_truthy password (by omega)
      rw [hf] at this
      exact absurd this (by decide)

theorem strength_full_truthy (password : String)
    (h : CompanyRegister.getPasswordStrength password = 100) : truthy password = true := by
  have hlen := ((strength_full_iff password).mp h).1
  have h8 : 8 ≤ jsLength password := by
    simpa [CompanyRegister.validatePassword] using hlen
  exact jsLength_truthy password (by omega)

theorem fieldError_name_iff (value : String) (required short : String)
    (hreq : required ≠ "") (hshort : short ≠ "") :
    (if (!truthy (trim value)) = true then required
      else if jsLength (trim value) < 2 then short else "") = "" ↔
      2 ≤ jsLength (trim value) := by
  constructor
  · intro h
    split_ifs at h with h1 h2
    · exact absurd h hreq
    · exact absurd h hshort
    · omega
  · intro h
    have ht := jsLength_truthy _ h
    have h2 : ¬ jsLength (trim value) < 2 := by omega
    simp [ht, h2]

/-! ## Registration form (C28) -/

/-- C28: for every registration form state with all fields touched, `isFormValid()` is
true if and only if `getFieldError` returns the empty string for each of `companyName`,
`cui`, `adminName`, `adminEmail`, `password` and `confirmPassword`; and for every
password, `getPasswordStrength(password)` is 100 exactly when all five `validatePassword`
checks pass. -/
theorem c28_form_valid_iff_no_field_error (st : CompanyRegisterState) (password : String)
    (htouched : ∀ field, st.touched field = true) :
    (CompanyRegister.isFormValid st = true ↔
      (CompanyRegister.getFieldError st FieldName.companyName = "" ∧
       CompanyRegister.getFieldError st FieldName.cui = "" ∧
       CompanyRegister.getFieldError st FieldName.adminName = "" ∧
       CompanyRegister.getFieldError st FieldName.adminEmail = "" ∧
       CompanyRegister.getFieldError st FieldName.password = "" ∧
       CompanyRegister.getFieldError st FieldName.confirmPassword = "")) ∧
    (CompanyRegister.getPasswordStrength password = 100 ↔
      ((CompanyRegister.validatePassword password).length = true ∧
        (CompanyRegister.validatePassword password).uppercase = true ∧
        (CompanyRegister.validatePassword password).lowercase = true ∧
        (CompanyRegister.validatePassword password).number = true ∧
        (CompanyRegister.validatePassword password).special = true)) := by
  refine ⟨?_, strength_full_iff password⟩
  have hcompany : CompanyRegister.getFieldError st FieldName.companyName = "" ↔
      2 ≤ jsLength (trim st.formData.companyName) := by
    simp only [CompanyRegister.getFieldError, htouched, Bool.not_true, Bool.false_eq_true,
      if_false]
    exact fieldError_name_iff _ _ _ (by decide) (by decide)
  have hadmin : CompanyRegister.getFieldError st FieldName.adminName = "" ↔
      2 ≤ jsLength (trim st.formData.adminName) := by
    simp only [CompanyRegister.getFieldError, htouched, Bool.not_true, Bool.false_eq_true,
      if_false]
    exact fieldError_name_iff _ _ _ (by decide) (by decide)
  have hcui : CompanyRegister.getFieldError st FieldName.cui = "" ↔
      CompanyRegister.validateCUI st.formData.cui = true := by
    simp only [CompanyRegister.getFieldError, htouched, Bool.not_true, Bool.false_eq_true,
      if_false]
    constructor
    · intro h
      split_ifs at h with h1 h2
      · exact absurd h (by decide)
      · exact absurd h (by decide)
      · simpa using h2
    · intro h
      simp [validateCUI_truthy _ h, h]
  have hemail : CompanyRegister.getFieldError st FieldName.adminEmail = "" ↔
      CompanyRegister.validateEmail st.formData.adminEmail = true := by
    simp only [CompanyRegister.getFieldError, htouched, Bool.not_true, Bool.false_eq_true,
      if_false]
    constructor
    · intro h
      split_ifs at h with h1 h2
      · exact absurd h (by decide)
      · exact absurd h (by decide)
      · simpa using h2
    · intro h
      simp [validateEmail_truthy _ h, h]
  have hpassword : CompanyRegister.getFieldError st FieldName.password = "" ↔
      CompanyRegister.getPasswordStrength st.formData.password = 100 := by
    rw [strength_full_iff]
    simp only [CompanyRegister.getFieldError, htouched, Bool.not_true, Bool.false_eq_true,
      if_false]
    constructor
    · intro h
      split_ifs at h with h0 h1 h2 h3 h4 h5
      · exact absurd h (by decide)
      · exact absurd h (by decide)
      · exact absurd h (by decide)
      · exact absurd h (by decide)
      · exact absurd h (by decide)
      · exact absurd h (by decide)
      · exact ⟨by simpa using h1, by simpa using h2, by simpa using h3, by simpa using h4,
          by simpa using h5⟩
    · rintro ⟨h1, h2, h3, h4, h5⟩
      have h8 : 8 ≤ jsLength st.formData.password := by
        simpa [CompanyRegister.validatePassword] using h1
      have ht := jsLength_truthy st.formData.password (by omega)
      simp [ht, h1, h2, h3, h4, h5]
  have hconfirm : truthy st.formData.password = true →
      (CompanyRegister.getFieldError st FieldName.confirmPassword = "" ↔
        st.formData.password = st.confirmPassword) := by
    intro hpw
    simp only [CompanyRegister.getFieldError, htouched, Bool.not_true, Bool.false_eq_true,
      if_false]
    constructor
    · intro h
      split_ifs at h with h1 h2
      · exact absurd h (by decide)
      · exact absurd h (by decide)
      · exact not_not.mp h2
    · intro h
      have ht : truthy st.confirmPassword = true := h ▸ hpw
      simp [ht, h]
  constructor
  · intro hvalid
    simp only [CompanyRegister.isFormValid, Bool.and_eq_true, decide_eq_true_eq] at hvalid
    obtain ⟨⟨⟨⟨⟨h1, h2⟩, h3⟩, h4⟩, h5⟩, h6⟩ := hvalid
    exact ⟨hcompany.mpr h1, hcui.mpr h2, hadmin.mpr h3, hemail.mpr h4, hpassword.mpr h5,
      (hconfirm (strength_full_truthy _ h5)).mpr h6⟩
  · rintro ⟨h1, h2, h3, h4, h5, h6⟩
    have h5s := hpassword.mp h5
    simp only [CompanyRegister.isFormValid, Bool.and_eq_true, decide_eq_true_eq]
    exact ⟨⟨⟨⟨⟨hcompany.mp h1, hcui.mp h2⟩, hadmin.mp h3⟩, hemail.mp h4⟩, h5s⟩,
      (hconfirm (strength_full_truthy _ h5s)).mp h6⟩

theorem c28_form_valid_iff_no_field_error_witness :
    (∀ field, sampleRegistration.touched field = true) ∧
    (CompanyRegister.isFormValid sampleRegistration = true ↔
      (CompanyRegister.getFieldError sampleRegistration FieldName.companyName = "" ∧
       CompanyRegister.getFieldError sampleRegistration FieldName.cui = "" ∧
       CompanyRegister.getFieldError sampleRegistration FieldName.adminName = "" ∧
       CompanyRegister.getFieldError sampleRegistration FieldName.adminEmail = "" ∧
       CompanyRegister.getFieldError sampleRegistration FieldName.password = "" ∧
       CompanyRegister.getFieldError sampleRegistration FieldName.confirmPassword = "")) ∧
    CompanyRegister.getFieldError sampleRegistration FieldName.cui = "" ∧
    CompanyRegister.getFieldError sampleRegistration FieldName.adminEmail = "" :=
  ⟨fun _ => rfl,
   (c28_form_valid_iff_no_field_error sampleRegistration "Secret#2024" (fun _ => rfl)).1,
   by decide, by decide⟩

/-! ## Thinning of the data points (C30) -/

theorem limitLoop_spec {α : Type} (data : List α) (step : Nat) (hstep : 0 < step)
    (fuel : Nat) :
    ∀ (i : Nat) (result : List α), data.length - 1 ≤ i + fuel * step →
      ∃ added, Dashboard.limitLoop data step (fuel + 1) i result = some (result ++ added) ∧
        added.Sublist ((data.take (data.length - 1)).drop i) ∧
        (added = [] ∨ added.length * step + i ≤ data.length - 2 + step) := by
  induction fuel with
  | zero =>
    intro i result hfuel
    refine ⟨[], ?_, List.nil_sublist _, Or.inl rfl⟩
    have hnot : ¬ i < data.length - 1 := by omega
    simp [Dashboard.limitLoop, hnot]
  | succ fuel ih =>
    intro i result hfuel
    by_cases hi : i < data.length - 1
    · have hfuel2 : data.length - 1 ≤ (i + step) + fuel * step := by
        have : (fuel + 1) * step = fuel * step + step := Nat.succ_mul fuel step
        omega
      obtain ⟨added, hrun, hsub, hlen⟩ :=
        ih (i + step) (result ++ [data.get ⟨i, by omega⟩]) hfuel2
      refine ⟨data.get ⟨i, by omega⟩ :: added, ?_, ?_, Or.inr ?_⟩
      · rw [Dashboard.limitLoop]
        simp only [hi, dite_true, hrun, List.append_assoc, List.singleton_append]
      · have hlt : i < (data.take (data.length - 1)).length := by
          rw [List.length_take]
          omega
        have hdrop : (data.take (data.length - 1)).drop i =
            data.get ⟨i, by omega⟩ :: (data.take (data.length - 1)).drop (i + 1) := by
          rw [List.drop_eq_getElem_cons hlt]
          congr 1
          simp [List.getElem_take]
        rw [hdrop]
        apply List.Sublist.cons₂
        have hsuffix : (data.take (data.length - 1)).drop (i + step) =
            ((data.take (data.length - 1)).drop (i + 1)).drop (step - 1) := by
          rw [List.drop_drop]
          congr 1
          omega
        rw [hsuffix] at hsub
        exact hsub.trans (List.drop_sublist _ _)
      · rcases hlen with hnil | hle
        · subst hnil
          simp only [List.length_singleton, Nat.one_mul]
          omega
        · have : (added.length + 1) * step = added.length * step + step :=
            Nat.succ_mul _ _
          simp only [List.length_cons]
          omega
    · refine ⟨[], ?_, List.nil_sublist _, Or.inl rfl⟩
      simp [Dashboard.limitLoop, hi]

theorem data_split_first_last {α : Type} (data : List α) (h : 2 ≤ data.length) :
    data = data.get ⟨0, by omega⟩ :: ((data.take (data.length - 1)).drop 1 ++
      [data.get ⟨data.length - 1, by omega⟩]) := by
  have h1 : data = data.take (data.length - 1) ++ data.drop (data.length - 1) :=
    (List.take_append_drop _ _).symm
  have h2 : data.drop (data.length - 1) = [data.get ⟨data.length - 1, by omega⟩] := by
    rw [List.drop_eq_getElem_cons (by omega)]
    have : data.length - 1 + 1 = data.length := by omega
    simp [this]
  have hlt : 0 < (data.take (data.length - 1)).length := by
    rw [List.length_take]
    omega
  have h3 : data.take (data.length - 1) =
      data.get ⟨0, by omega⟩ :: (data.take (data.length - 1)).drop 1 := by
    conv_lhs => rw [← List.drop_zero (data.take (data.length - 1))]
    rw [List.drop_eq_getElem_cons hlt]
    congr 1
    simp [List.getElem_take]
  conv_lhs => rw [h1, h2, h3]
  rfl

theorem getLast_cons_concat {α : Type} (a : α) (middle : List α) (last : α) :
    (a :: (middle ++ [last])).getLast? = some last :=
  List.getLast?_concat (a :: middle)

/-- C30: with fuel for five tests of the loop condition, `limitDataPoints` returns for
every list: a list of 6 points or fewer unchanged, and for a list of more than 6 points a
subsequence of the input (its elements at strictly increasing indices) of at most 6
elements whose first element is the input's first and whose last element is the input's
last. -/
theorem c30_limitDataPoints_subsequence {α : Type} (data : List α) (fuel : Nat)
    (hfuel : 5 ≤ fuel) :
    (data.length ≤ 6 → Dashboard.limitDataPoints fuel data = some data) ∧
    (6 < data.length →
      ∃ result, Dashboard.limitDataPoints fuel data = some result ∧
        result.Sublist data ∧ result.length ≤ 6 ∧
        result.head? = data.head? ∧ result.getLast? = data.getLast?) := by
  constructor
  · intro hle
    simp [Dashboard.limitDataPoints, hle]
  · intro hlen
    have hnot : ¬ data.length ≤ 6 := by omega
    have hstep : 0 < (data.length - 2 + 3) / 4 := by omega
    have hceil : data.length - 2 ≤ 4 * ((data.length - 2 + 3) / 4) := by omega
    obtain ⟨f, rfl⟩ : ∃ f, fuel = f + 1 := ⟨fuel - 1, by omega⟩
    have hf : 4 ≤ f := by omega
    have hmul : 4 * ((data.length - 2 + 3) / 4) ≤ f * ((data.length - 2 + 3) / 4) :=
      Nat.mul_le_mul_right _ hf
    obtain ⟨added, hrun, hsub, hbound⟩ :=
      limitLoop_spec data ((data.length - 2 + 3) / 4) hstep f ((data.length - 2 + 3) / 4)
        [data.get ⟨0, by omega⟩] (by omega)
    refine ⟨data.get ⟨0, by omega⟩ :: (added ++ [data.get ⟨data.length - 1, by omega⟩]),
      ?_, ?_, ?_, ?_, ?_⟩
    · simp only [Dashboard.limitDataPoints, hnot, dite_false, hrun, Option.map_some',
        List.singleton_append, List.cons_append, List.nil_append]
    · conv_rhs => rw [data_split_first_last data (by omega)]
      apply List.Sublist.cons₂
      apply List.Sublist.append _ (List.Sublist.refl _)
      have hsuffix : (data.take (data.length - 1)).drop ((data.length - 2 + 3) / 4) =
          ((data.take (data.length - 1)).drop 1).drop ((data.length - 2 + 3) / 4 - 1) := by
        rw [List.drop_drop]
        congr 1
        omega
      rw [hsuffix] at hsub
      exact hsub.trans (List.drop_sublist _ _)
    · simp only [List.length_cons, List.length_append, List.length_singleton,
        List.length_nil]
      rcases hbound with hnil | hle
      · subst hnil
        simp
      · have h4 : added.length * ((data.length - 2 + 3) / 4) ≤
            4 * ((data.length - 2 + 3) / 4) := by omega
        have := Nat.le_of_mul_le_mul_right h4 hstep
        omega
    · conv_rhs => rw [data_split_first_last data (by omega)]
      rfl
    · conv_rhs => rw [data_split_first_last data (by omega)]
      rw [getLast_cons_concat, getLast_cons_concat]

theorem c30_limitDataPoints_subsequence_witness :
    5 ≤ 5 ∧
    (∃ result, Dashboard.limitDataPoints 5 [10, 11, 12, 13, 14, 15, 16, 17, 18, 19] =
          some result ∧
        result.Sublist [10, 11, 12, 13, 14, 15, 16, 17, 18, 19] ∧ result.length ≤ 6 ∧
        result.head? = [10, 11, 12, 13, 14, 15, 16, 17, 18, 19].head? ∧
        result.getLast? = [10, 11, 12, 13, 14, 15, 16, 17, 18, 19].getLast?) ∧
    Dashboard.limitDataPoints 5 [10, 11, 12, 13, 14, 15, 16, 17, 18, 19] =
      some [10, 12, 14, 16, 18, 19] :=
  ⟨by decide,
   (c30_limitDataPoints_subsequence [10, 11, 12, 13, 14, 15, 16, 17, 18, 19] 5
      (by decide)).2 (by decide),
   by decide⟩

end InventoryFrontend
